import Mathlib

/-!
Verification development for the libeval expression compiler and virtual
machine (`libeval_compiler.cpp`).  The sources provide the compiler, code
generator and VM implementation; the class declarations
(`libeval_compiler.h`) and the lemon-generated grammar (`grammar.c` /
`grammar.h`) are not part of the provided sources, so the opcode and token
constants, the `VALUE` / `CONTEXT` primitive accessors and the parser are
modelled from the specification where needed (each such definition carries a
doc comment saying so).  All numeric values are modelled as exact rationals.
-/

/-! ### Opcode constants

Modelled from the spec: the numeric opcode encodings live in the missing
header `libeval_compiler.h`.  What the implementation file relies on is that
every binary operator carries the binary mask bit, that the boolean-not
opcode carries the unary mask bit and no binary bit, and that the push /
method-call opcodes carry neither mask bit. -/

def TR_UOP_PUSH_VAR : Nat := 1

def TR_UOP_PUSH_VALUE : Nat := 2

def TR_OP_UNARY_MASK : Nat := 0x100

def TR_OP_BINARY_MASK : Nat := 0x200

def TR_OP_MUL : Nat := 0x201

def TR_OP_DIV : Nat := 0x202

def TR_OP_ADD : Nat := 0x203

def TR_OP_SUB : Nat := 0x204

def TR_OP_LESS : Nat := 0x205

def TR_OP_GREATER : Nat := 0x206

def TR_OP_LESS_EQUAL : Nat := 0x207

def TR_OP_GREATER_EQUAL : Nat := 0x208

def TR_OP_EQUAL : Nat := 0x209

def TR_OP_NOT_EQUAL : Nat := 0x20a

def TR_OP_BOOL_AND : Nat := 0x20b

def TR_OP_BOOL_OR : Nat := 0x20c

def TR_OP_BOOL_NOT : Nat := 0x100

def TR_OP_FUNC_CALL : Nat := 0x400

def TR_OP_METHOD_CALL : Nat := 0x401

/-- Modelled from the spec: tree-node tags for literal / identifier /
struct-reference nodes (missing header).  Only distinctness from each other
and from the operator opcodes matters to the implementation file. -/
def TR_NUMBER : Nat := 3

def TR_STRING : Nat := 4

def TR_IDENTIFIER : Nat := 5

def TR_STRUCT_REF : Nat := 6

def TR_UNIT : Nat := 7

/-- The compilation stages of the error taxonomy (enum from the missing
header; the three stage names appear throughout the implementation file). -/
inductive COMPILATION_STAGE where
  | CST_PARSE
  | CST_CODEGEN
  | CST_RUNTIME
deriving DecidableEq, Repr

/-! ### The Value model -/

/-- The tagged value type: numeric (double, modelled as an exact rational)
or text.  Declared in the missing header; modelled from the spec
(tagged union of numeric and text). -/
inductive VALUE where
  | num (v : Rat)
  | str (s : String)
deriving DecidableEq, Repr

def charsToNat (l : List Char) : Nat :=
  l.foldl (fun a c => a * 10 + (c.toNat - 48)) 0

/-- Modelled from the spec: coercion of text to numeric — a leading decimal
number is parsed, non-numeric text coerces to 0.0 (wxAtof-like). -/
def strToRat (s : String) : Rat :=
  let cs := s.toList
  let intPart := cs.takeWhile Char.isDigit
  let rest := cs.dropWhile Char.isDigit
  match rest with
  | '.' :: fracRest =>
      let frac := fracRest.takeWhile Char.isDigit
      (charsToNat intPart : Rat) + (charsToNat frac : Rat) / ((10 : Rat) ^ frac.length)
  | _ => (charsToNat intPart : Rat)

/-- Modelled from the spec: `VALUE::AsDouble` — numeric values by value,
text coerced to numeric. -/
def VALUE.AsDouble : VALUE → Rat
  | .num v => v
  | .str s => strToRat s

/-- Modelled from the spec: value-level equality — numeric compares by
value, text compares by content; comparisons across the two tags are not
specified by the spec and are modelled as unequal. -/
def VALUE.EqualTo : VALUE → VALUE → Bool
  | .num a, .num b => a == b
  | .str a, .str b => a == b
  | _, _ => false

/-- The error/status record: {pending flag, stage, message, source offset}
(declared in the missing header; the four fields are written by
`CONTEXT::ReportError` and `COMPILER::reportError` in the sources). -/
structure ERROR_STATUS where
  pendingError : Bool
  stage : COMPILATION_STAGE
  message : String
  srcPos : Int
deriving DecidableEq, Repr

def ERROR_STATUS.init : ERROR_STATUS :=
  { pendingError := false, stage := .CST_PARSE, message := "", srcPos := 0 }

/-! ### The runtime context -/

/-- The per-evaluation runtime context: an operand stack of `VALUE`
pointers (a slot can hold a null pointer, hence `Option VALUE`), an error
status slot, and a trace of the error-callback invocations (the callback
itself is host-supplied; we record its argument sequence). -/
structure CONTEXT where
  stack : List (Option VALUE)
  errorStatus : ERROR_STATUS
  errorCallbackTrace : List String
deriving DecidableEq, Repr

def CONTEXT.empty : CONTEXT :=
  { stack := [], errorStatus := ERROR_STATUS.init, errorCallbackTrace := [] }

/-- Modelled from the spec: pushing a value onto the operand stack (the
`CONTEXT::Push` accessor is declared in the missing header). -/
def CONTEXT.Push (c : CONTEXT) (v : Option VALUE) : CONTEXT :=
  { c with stack := v :: c.stack }

/-- Modelled from the spec: popping the operand stack; per the defensive
coercion policy of the spec, an absent operand behaves as a null value
(`CONTEXT::Pop` is declared in the missing header). -/
def CONTEXT.Pop (c : CONTEXT) : Option VALUE × CONTEXT :=
  match c.stack with
  | [] => (none, c)
  | v :: rest => (v, { c with stack := rest })

/-- Modelled from the spec: the stack pointer — number of values on the
operand stack. -/
def CONTEXT.SP (c : CONTEXT) : Nat := c.stack.length

def CONTEXT.IsErrorPending (c : CONTEXT) : Bool := c.errorStatus.pendingError

def CONTEXT.GetError (c : CONTEXT) : ERROR_STATUS := c.errorStatus

/-- `CONTEXT::ReportError` (sources): sets the pending error with Runtime
stage and offset -1, and invokes the error callback. -/
def CONTEXT.ReportError (c : CONTEXT) (aErrorMsg : String) : CONTEXT :=
  { c with
    errorStatus :=
      { pendingError := true, message := aErrorMsg, srcPos := -1, stage := .CST_RUNTIME },
    errorCallbackTrace := c.errorCallbackTrace ++ [aErrorMsg] }

/-- Modelled from the spec: a variable reference is a host-produced
capability exposing a fetch of the current value given a runtime context,
plus a resolved type (which can signal an unknown property via
`VT_PARSE_ERROR`). -/
inductive VAR_TYPE where
  | VT_UNDEFINED
  | VT_NUMERIC
  | VT_STRING
  | VT_PARSE_ERROR
deriving DecidableEq, Repr

structure VAR_REF where
  varType : VAR_TYPE
  GetValue : CONTEXT → VALUE

/-- Modelled from the spec: a function reference is a host-produced
capability invoked with the runtime context and the bound receiver
reference; it transforms the context (popping its arguments and pushing
its result). -/
def FUNC_CALL_REF := CONTEXT → Option VAR_REF → CONTEXT

/-! ### Instructions -/

/-- A bytecode instruction (`UOP`): opcode plus optional literal value,
variable reference and function reference, mirroring the members
`m_op`, `m_value`, `m_ref`, `m_func` used by the sources. -/
structure UOP where
  m_op : Nat
  m_value : Option VALUE := none
  m_ref : Option VAR_REF := none
  m_func : Option FUNC_CALL_REF := none

instance : Inhabited UOP := ⟨{ m_op := 0 }⟩

def coerceNum (arg : Option VALUE) : Rat :=
  match arg with
  | some v => v.AsDouble
  | none => 0

/-- `UOP::Exec` (sources, lines 939-1023): executes one instruction against
a runtime context.  The unary-mask branch is empty in the sources
(`fixme : not operator`), so it leaves the context unchanged.  The two
null-dereference paths of the C++ (a push-var with a null reference, a
method call with an empty function object) are modelled as no-op pushes /
identity; they are unreachable in the verified executions. -/
def UOP.Exec (u : UOP) (ctx : CONTEXT) : CONTEXT :=
  if u.m_op = TR_UOP_PUSH_VAR then
    match u.m_ref with
    | some r => ctx.Push (some (r.GetValue ctx))
    | none => ctx.Push none
  else if u.m_op = TR_UOP_PUSH_VALUE then
    ctx.Push u.m_value
  else if u.m_op = TR_OP_METHOD_CALL then
    match u.m_func with
    | some f => f ctx u.m_ref
    | none => ctx
  else if u.m_op &&& TR_OP_BINARY_MASK ≠ 0 then
    let p2 := ctx.Pop
    let arg2 := p2.1
    let p1 := p2.2.Pop
    let arg1 := p1.1
    let arg2Value := coerceNum arg2
    let arg1Value := coerceNum arg1
    let result : Rat :=
      if u.m_op = TR_OP_ADD then arg1Value + arg2Value
      else if u.m_op = TR_OP_SUB then arg1Value - arg2Value
      else if u.m_op = TR_OP_MUL then arg1Value * arg2Value
      else if u.m_op = TR_OP_DIV then arg1Value / arg2Value
      else if u.m_op = TR_OP_LESS_EQUAL then (if arg1Value ≤ arg2Value then 1 else 0)
      else if u.m_op = TR_OP_GREATER_EQUAL then (if arg1Value ≥ arg2Value then 1 else 0)
      else if u.m_op = TR_OP_LESS then (if arg1Value < arg2Value then 1 else 0)
      else if u.m_op = TR_OP_GREATER then (if arg1Value > arg2Value then 1 else 0)
      else if u.m_op = TR_OP_EQUAL then
        (match arg1, arg2 with
         | some a, some b => if a.EqualTo b then 1 else 0
         | _, _ => 0)
      else if u.m_op = TR_OP_NOT_EQUAL then
        (match arg1, arg2 with
         | some a, some b => if a.EqualTo b then 0 else 1
         | _, _ => 1)
      else if u.m_op = TR_OP_BOOL_AND then
        (if arg1Value ≠ 0 ∧ arg2Value ≠ 0 then 1 else 0)
      else if u.m_op = TR_OP_BOOL_OR then
        (if arg1Value ≠ 0 ∨ arg2Value ≠ 0 then 1 else 0)
      else 0
    p1.2.Push (some (VALUE.num result))
  else if u.m_op &&& TR_OP_UNARY_MASK ≠ 0 then
    ctx
  else
    ctx

/-- The VM main loop body of `UCODE::Run`: execute all instructions in
order. -/
def execList (prog : List UOP) (ctx : CONTEXT) : CONTEXT :=
  prog.foldl (fun c u => u.Exec c) ctx

/-- `UCODE::Run` (sources, lines 1026-1033): execute every instruction in
order, then pop the result (the C++ asserts `SP() == 1` before the pop). -/
def UCODE.Run (prog : List UOP) (ctx : CONTEXT) : Option VALUE × CONTEXT :=
  (execList prog ctx).Pop

/-! ### The tokenizer -/

/-- The tokenizer: the source text and a cursor (members `m_str`, `m_pos`).
The text is modelled as a list of characters. -/
structure TOKENIZER where
  m_str : List Char
  m_pos : Nat
deriving DecidableEq, Repr

/-- Modelled from the spec: reading the character at the cursor; past the
end of the text it yields NUL (which the lexer treats as end of input). -/
def TOKENIZER.GetChar (t : TOKENIZER) : Char :=
  t.m_str.getD t.m_pos (Char.ofNat 0)

/-- Modelled from the spec: advance the cursor by `n` characters (the C++
default argument is 1; callers here always pass `n` explicitly). -/
def TOKENIZER.NextChar (t : TOKENIZER) (n : Nat) : TOKENIZER :=
  { t with m_pos := t.m_pos + n }

def TOKENIZER.Done (t : TOKENIZER) : Bool :=
  t.m_str.length ≤ t.m_pos

def TOKENIZER.GetPos (t : TOKENIZER) : Nat := t.m_pos

def TOKENIZER.Restart (s : List Char) : TOKENIZER := ⟨s, 0⟩

def TOKENIZER.Clear : TOKENIZER := ⟨[], 0⟩

/-- `TOKENIZER::GetChars` (sources, lines 169-181): collect the characters
from the cursor onward while the condition holds (the cursor itself is not
moved). -/
def TOKENIZER.GetChars (t : TOKENIZER) (cond : Char → Bool) : List Char :=
  (t.m_str.drop t.m_pos).takeWhile cond

/-- `TOKENIZER::MatchAhead` (sources, lines 183-195): the text at the
cursor matches `pat` and either the input ends right after it or the
following character satisfies `stopCond`. -/
def TOKENIZER.MatchAhead (t : TOKENIZER) (pat : List Char) (stopCond : Char → Bool) : Bool :=
  let remaining : Int := (t.m_str.length : Int) - (t.m_pos : Int)
  if remaining < (pat.length : Int) then false
  else if (t.m_str.drop t.m_pos).take pat.length = pat then
    (remaining = (pat.length : Int) || stopCond (t.m_str.getD (t.m_pos + pat.length) (Char.ofNat 0)))
  else false

/-! ### Grammar token ids

Modelled from the spec: the token ids come from the missing generated
`grammar.h`.  Lemon reserves 0 for the end-of-input token (the implementation
relies on this: the compile loop runs `while( tok.token )` and treats
`G_ENDS` as the end marker), and all other ids are merely distinct. -/

def G_ENDS : Nat := 0

def G_VALUE : Nat := 1

def G_IDENTIFIER : Nat := 2

def G_UNIT : Nat := 3

def G_STRING : Nat := 4

def G_EQUAL : Nat := 5

def G_NOT_EQUAL : Nat := 6

def G_LESS_EQUAL_THAN : Nat := 7

def G_GREATER_EQUAL_THAN : Nat := 8

def G_BOOL_AND : Nat := 9

def G_BOOL_OR : Nat := 10

def G_PLUS : Nat := 11

def G_BOOL_NOT : Nat := 12

def G_MINUS : Nat := 13

def G_MULT : Nat := 14

def G_DIVIDE : Nat := 15

def G_LESS_THAN : Nat := 16

def G_GREATER_THAN : Nat := 17

def G_PARENL : Nat := 18

def G_PARENR : Nat := 19

def G_SEMCOL : Nat := 20

def G_STRUCT_REF : Nat := 21

/-- A token payload (struct `T_TOKEN_VALUE`): optional string, numeric text
and unit index. -/
structure T_TOKEN_VALUE where
  str : Option String := none
  num : Rat := 0
  idx : Int := 0
deriving DecidableEq, Repr

/-- A token (struct `T_TOKEN`): grammar token id plus payload. -/
structure T_TOKEN where
  token : Nat
  value : T_TOKEN_VALUE
deriving DecidableEq, Repr

/-! ### AST nodes -/

/-- `TREE_NODE` (declared in the missing header, but its fields `op`,
`value.str`, `value.num`, `value.idx`, `srcPos`, `leaf[0]`, `leaf[1]` are
all manipulated by the sources): a tagged node with up to two children.
The transient flags `isTerminal` / `isVisited` / `uop` of the C++ node are
modelled as code-generator state maps keyed by tree paths. -/
inductive TREE_NODE where
  | mk (op : Nat) (valueStr : Option String) (valueNum : Rat) (valueIdx : Int)
       (srcPos : Int) (leaf0 : Option TREE_NODE) (leaf1 : Option TREE_NODE)

def TREE_NODE.op : TREE_NODE → Nat
  | .mk o _ _ _ _ _ _ => o

def TREE_NODE.valueStr : TREE_NODE → Option String
  | .mk _ vs _ _ _ _ _ => vs

def TREE_NODE.valueNum : TREE_NODE → Rat
  | .mk _ _ vn _ _ _ _ => vn

def TREE_NODE.valueIdx : TREE_NODE → Int
  | .mk _ _ _ vi _ _ _ => vi

def TREE_NODE.srcPos : TREE_NODE → Int
  | .mk _ _ _ _ sp _ _ => sp

def TREE_NODE.leaf0 : TREE_NODE → Option TREE_NODE
  | .mk _ _ _ _ _ l0 _ => l0

def TREE_NODE.leaf1 : TREE_NODE → Option TREE_NODE
  | .mk _ _ _ _ _ _ l1 => l1

/-- A path from the root of a tree to one of its nodes (`false` selects
`leaf[0]`, `true` selects `leaf[1]`); tree paths model the C++ node pointers
held on the code generator's work stack. -/
abbrev TPath := List Bool

def getNode : TREE_NODE → TPath → Option TREE_NODE
  | t, [] => some t
  | t, b :: p =>
    match (if b then t.leaf1 else t.leaf0) with
    | none => none
    | some c => getNode c p

/-- `prepareTree` (sources, lines 679-696): reset the visit flags (our
visited map starts out empty, so only the structural part is modelled) and
null out the leaf pointers of function-name nodes, which the lemon parser
leaves uninitialized.  The C++ nulls the grandchildren before recursing into
them; recursing first and nulling afterwards yields the same tree. -/
def prepareTree : TREE_NODE → TREE_NODE
  | .mk op vs vn vi sp l0 l1 =>
    let pl0 :=
      match l0 with
      | none => none
      | some c => some (prepareTree c)
    let pl1 :=
      match l1 with
      | none => none
      | some c => some (prepareTree c)
    let pl0 :=
      if op = TR_OP_FUNC_CALL then
        match pl0 with
        | none => none
        | some (.mk cop cvs cvn cvi csp _ _) => some (.mk cop cvs cvn cvi csp none none)
      else pl0
    .mk op vs vn vi sp pl0 pl1

/-! ### The compiler instance -/

inductive LEXER_STATE where
  | LS_DEFAULT
  | LS_STRING
deriving DecidableEq, Repr

/-- The mutable compiler instance state (class `COMPILER`): lexer state and
tokenizer, source cursor for error positions, parse-completion flag, the
AST root, the single error-status slot, the supported unit names
(`m_unitResolver->GetSupportedUnits()`), and the trace of error-callback
invocations (message, offset).  The garbage-collection lists of the C++ are
memory management only and are not modelled. -/
structure COMPILER where
  m_lexerState : LEXER_STATE
  m_localeDecimalSeparator : Char
  m_sourcePos : Int
  m_parseFinished : Bool
  m_tree : Option TREE_NODE
  m_errorStatus : ERROR_STATUS
  m_tokenizer : TOKENIZER
  m_units : List (List Char)
  m_callbackTrace : List (String × Int)

/-- Modelled from the spec: the default unit-resolver unit names (length
units; the sources mention mm and inch in the unit-conversion comment). -/
def defaultUnits : List (List Char) :=
  [['m', 'm'], ['c', 'm'], ['i', 'n'], ['m', 'i', 'l']]

/-- The `COMPILER` constructor (sources, lines 198-208): locale separator
`.`, source position 0, parse not finished, default unit resolver, no tree,
no pending error. -/
def COMPILER.new : COMPILER :=
  { m_lexerState := .LS_DEFAULT
    m_localeDecimalSeparator := '.'
    m_sourcePos := 0
    m_parseFinished := false
    m_tree := none
    m_errorStatus := { pendingError := false, stage := .CST_PARSE, message := "", srcPos := 0 }
    m_tokenizer := ⟨[], 0⟩
    m_units := defaultUnits
    m_callbackTrace := [] }

/-- `COMPILER::Clear` (sources, lines 222-242): clears the tokenizer, frees
the tree and the garbage-collected strings/nodes.  Note that it does NOT
touch `m_errorStatus`. -/
def COMPILER.Clear (c : COMPILER) : COMPILER :=
  { c with m_tokenizer := TOKENIZER.Clear, m_tree := none }

/-- `COMPILER::reportError` (sources, lines 612-624): offset -1 selects the
current source position; the error slot is overwritten unconditionally and
the error callback is invoked. -/
def COMPILER.reportError (c : COMPILER) (stage : COMPILATION_STAGE) (aErrorMsg : String)
    (aPos : Int) : COMPILER :=
  let pos := if aPos = -1 then c.m_sourcePos else aPos
  { c with
    m_errorStatus :=
      { pendingError := true, stage := stage, message := aErrorMsg, srcPos := pos },
    m_callbackTrace := c.m_callbackTrace ++ [(aErrorMsg, pos)] }

/-- `COMPILER::parseError` (sources): report a Parse-stage error at the
current source position. -/
def COMPILER.parseError (c : COMPILER) (s : String) : COMPILER :=
  c.reportError .CST_PARSE s (-1)

/-- `COMPILER::newString` (sources, lines 307-314). -/
def COMPILER.newString (c : COMPILER) (aString : List Char) : COMPILER :=
  let c := c.Clear
  { c with
    m_lexerState := .LS_DEFAULT,
    m_tokenizer := TOKENIZER.Restart aString,
    m_parseFinished := false }

/-! ### The lexer -/

def isDecimalSeparatorCh (sep ch : Char) : Bool :=
  ch = sep || ch = '.' || ch = ','

/-- The whitespace-skipping loop at the start of `COMPILER::lexDefault`
(sources, lines 428-436), as a cursor advance; recursion is on the amount
of remaining input. -/
def skipSpacesAux (str : List Char) : Nat → Nat → Nat
  | pos, 0 => pos
  | pos, f + 1 =>
    if str.getD pos (Char.ofNat 0) = ' ' then skipSpacesAux str (pos + 1) f else pos

/-- The do-while loop of the `extractNumber` lambda (sources, lines
396-422): collect digit / decimal-separator characters, stopping at a
second separator, and report the final cursor; recursion is on the amount
of remaining input. -/
def extractNumberLoop (str : List Char) (sep : Char) : Nat → Nat → Bool → List Char × Nat
  | pos, 0, _ => ([], pos)
  | pos, f + 1, haveSep =>
    let ch := str.getD pos (Char.ofNat 0)
    if isDecimalSeparatorCh sep ch && haveSep then ([], pos)
    else
      let haveSepNext := haveSep || isDecimalSeparatorCh sep ch
      let posNext := pos + 1
      let chNext := str.getD posNext (Char.ofNat 0)
      if chNext.isDigit || isDecimalSeparatorCh sep chNext then
        let r := extractNumberLoop str sep posNext f haveSepNext
        (ch :: r.1, r.2)
      else ([ch], posNext)

/-- The `extractNumber` lambda of `COMPILER::lexDefault`: run the
collection loop and normalize every decimal separator to the locale
separator. -/
def COMPILER.extractNumber (c : COMPILER) : List Char × COMPILER :=
  let r := extractNumberLoop c.m_tokenizer.m_str c.m_localeDecimalSeparator
             c.m_tokenizer.m_pos (c.m_tokenizer.m_str.length + 1) false
  let cur := r.1.map (fun ch =>
    if isDecimalSeparatorCh c.m_localeDecimalSeparator ch then c.m_localeDecimalSeparator else ch)
  (cur, { c with m_tokenizer := ⟨c.m_tokenizer.m_str, r.2⟩ })

/-- The iteration of `COMPILER::resolveUnits` (sources, lines 353-370) over
the supported unit names: first name that matches ahead with a
non-alphanumeric stop condition wins; on a match the tokenizer is advanced
past the name. -/
def resolveUnitsLoop (tk : TOKENIZER) : List (List Char) → Nat → Int × TOKENIZER
  | [], _ => (-1, tk)
  | u :: rest, unitId =>
    if tk.MatchAhead u (fun ch => !ch.isAlphanum) then ((unitId : Int), tk.NextChar u.length)
    else resolveUnitsLoop tk rest (unitId + 1)

def COMPILER.resolveUnits (c : COMPILER) : Int × COMPILER :=
  let r := resolveUnitsLoop c.m_tokenizer c.m_units 0
  (r.1, { c with m_tokenizer := r.2 })

/-- `COMPILER::lexString` (sources, lines 340-350). -/
def COMPILER.lexString (c : COMPILER) : Bool × T_TOKEN × COMPILER :=
  let str := c.m_tokenizer.GetChars (fun ch => ch ≠ Char.ofNat 39)
  (true,
   { token := G_STRING, value := { str := some (String.mk str) } },
   { c with
     m_tokenizer := c.m_tokenizer.NextChar (str.length + 1),
     m_lexerState := .LS_DEFAULT })

/-- The body of `COMPILER::lexDefault` after the end-of-input check and
whitespace skip (the tokenizer cursor is already past the spaces). -/
def COMPILER.lexDefaultBody (c : COMPILER) : Bool × T_TOKEN × COMPILER :=
  if c.m_tokenizer.GetChar = Char.ofNat 0 then
    (true, { token := G_ENDS, value := {} }, c)
  else if c.m_tokenizer.GetChar.isDigit then
    (true, { token := G_VALUE, value := { str := some (String.mk c.extractNumber.1) } },
     c.extractNumber.2)
  else if c.resolveUnits.1 ≥ 0 then
    (true, { token := G_UNIT, value := { idx := c.resolveUnits.1 } }, c.resolveUnits.2)
  else if c.m_tokenizer.GetChar = Char.ofNat 39 then
    (false, { token := G_ENDS, value := {} },
     { c with m_lexerState := .LS_STRING, m_tokenizer := c.m_tokenizer.NextChar 1 })
  else if c.m_tokenizer.GetChar.isAlpha || c.m_tokenizer.GetChar = '_' then
    (true,
     { token := G_IDENTIFIER,
       value := { str := some (String.mk
         (c.m_tokenizer.GetChars (fun x => x.isAlphanum || x = '_'))) } },
     { c with m_tokenizer := (c.m_tokenizer.NextChar
         (c.m_tokenizer.GetChars (fun x => x.isAlphanum || x = '_')).length) })
  else if c.m_tokenizer.MatchAhead ['=', '='] (fun x => x ≠ '=') then
    (true, { token := G_EQUAL, value := {} },
     { c with m_tokenizer := c.m_tokenizer.NextChar 2 })
  else if c.m_tokenizer.MatchAhead ['!', '='] (fun x => x ≠ '=') then
    (true, { token := G_NOT_EQUAL, value := {} },
     { c with m_tokenizer := c.m_tokenizer.NextChar 2 })
  else if c.m_tokenizer.MatchAhead ['<', '='] (fun x => x ≠ '=') then
    (true, { token := G_LESS_EQUAL_THAN, value := {} },
     { c with m_tokenizer := c.m_tokenizer.NextChar 2 })
  else if c.m_tokenizer.MatchAhead ['>', '='] (fun x => x ≠ '=') then
    (true, { token := G_GREATER_EQUAL_THAN, value := {} },
     { c with m_tokenizer := c.m_tokenizer.NextChar 2 })
  else if c.m_tokenizer.MatchAhead ['&', '&'] (fun x => x ≠ '&') then
    (true, { token := G_BOOL_AND, value := {} },
     { c with m_tokenizer := c.m_tokenizer.NextChar 2 })
  else if c.m_tokenizer.MatchAhead ['|', '|'] (fun x => x ≠ '|') then
    (true, { token := G_BOOL_OR, value := {} },
     { c with m_tokenizer := c.m_tokenizer.NextChar 2 })
  -- the single-character switch; the default case reports the
  -- unrecognized-character Parse error (quote characters omitted from the
  -- message) and still advances past the character
  else if c.m_tokenizer.GetChar = '+' then
    (true, { token := G_PLUS, value := {} },
     { c with m_tokenizer := c.m_tokenizer.NextChar 1 })
  else if c.m_tokenizer.GetChar = '!' then
    (true, { token := G_BOOL_NOT, value := {} },
     { c with m_tokenizer := c.m_tokenizer.NextChar 1 })
  else if c.m_tokenizer.GetChar = '-' then
    (true, { token := G_MINUS, value := {} },
     { c with m_tokenizer := c.m_tokenizer.NextChar 1 })
  else if c.m_tokenizer.GetChar = '*' then
    (true, { token := G_MULT, value := {} },
     { c with m_tokenizer := c.m_tokenizer.NextChar 1 })
  else if c.m_tokenizer.GetChar = '/' then
    (true, { token := G_DIVIDE, value := {} },
     { c with m_tokenizer := c.m_tokenizer.NextChar 1 })
  else if c.m_tokenizer.GetChar = '<' then
    (true, { token := G_LESS_THAN, value := {} },
     { c with m_tokenizer := c.m_tokenizer.NextChar 1 })
  else if c.m_tokenizer.GetChar = '>' then
    (true, { token := G_GREATER_THAN, value := {} },
     { c with m_tokenizer := c.m_tokenizer.NextChar 1 })
  else if c.m_tokenizer.GetChar = '(' then
    (true, { token := G_PARENL, value := {} },
     { c with m_tokenizer := c.m_tokenizer.NextChar 1 })
  else if c.m_tokenizer.GetChar = ')' then
    (true, { token := G_PARENR, value := {} },
     { c with m_tokenizer := c.m_tokenizer.NextChar 1 })
  else if c.m_tokenizer.GetChar = ';' then
    (true, { token := G_SEMCOL, value := {} },
     { c with m_tokenizer := c.m_tokenizer.NextChar 1 })
  else if c.m_tokenizer.GetChar = '.' then
    (true, { token := G_STRUCT_REF, value := {} },
     { c with m_tokenizer := c.m_tokenizer.NextChar 1 })
  else
    let cErr := c.reportError .CST_PARSE
      ("Unrecognized character " ++ String.mk [c.m_tokenizer.GetChar]) (-1)
    (true, { token := G_ENDS, value := {} },
     { cErr with m_tokenizer := cErr.m_tokenizer.NextChar 1 })

/-- `COMPILER::lexDefault` (sources, lines 373-532): signal end of input,
skip whitespace, then classify the next lexeme via `lexDefaultBody`.  The
boolean result is the `done` flag of the tokenizing loop (only the
string-literal opener returns `false`, switching the lexer into its string
sub-state). -/
def COMPILER.lexDefault (c : COMPILER) : Bool × T_TOKEN × COMPILER :=
  if c.m_tokenizer.Done then (true, { token := G_ENDS, value := {} }, c)
  else
    COMPILER.lexDefaultBody
      { c with
        m_tokenizer := ⟨c.m_tokenizer.m_str,
          skipSpacesAux c.m_tokenizer.m_str c.m_tokenizer.m_pos
            (c.m_tokenizer.m_str.length + 1)⟩ }

/-- `COMPILER::getToken` (sources, lines 316-337): loop over the lexer
states until a sub-lexer reports done.  Only the string-literal opener
loops (once), so the fuel of 4 is never exhausted. -/
def COMPILER.getToken : Nat → COMPILER → T_TOKEN × COMPILER
  | 0, c => ({ token := G_ENDS, value := {} }, c)
  | f + 1, c =>
    let r :=
      match c.m_lexerState with
      | .LS_DEFAULT => c.lexDefault
      | .LS_STRING => c.lexString
    if r.1 then (r.2.1, r.2.2) else COMPILER.getToken f r.2.2

/-! ### The code generator -/

/-- The host-resolver environment: `UCODE::CreateVarRef` /
`UCODE::CreateFuncCall` are virtual methods implemented by the host
(modelled from the spec as the Resolver interface), and
`UNIT_RESOLVER::Convert` converts numeric text with a unit id into
canonical units (modelled from the spec). -/
structure ENV where
  CreateVarRef : String → String → Option VAR_REF
  CreateFuncCall : String → Option FUNC_CALL_REF
  Convert : String → Int → Rat

def markV (vis : TPath → Bool) (p : TPath) : TPath → Bool :=
  fun q => if q = p then true else vis q

def setU (m : TPath → Option UOP) (p : TPath) (u : Option UOP) : TPath → Option UOP :=
  fun q => if q = p then u else m q

/-- The mutable state of the `COMPILER::generateUCode` work loop: the work
stack of node paths, the per-node `isVisited` flags and pending `uop`
slots (C++ node fields, keyed here by tree path), the emitted program
(`aCode`), the compiler instance (for `reportError`) and the preflight
context. -/
structure GEN_STATE where
  stack : List TPath
  visited : TPath → Bool
  uops : TPath → Option UOP
  emitted : List UOP
  comp : COMPILER
  pre : CONTEXT

/-- The common tail of one `generateUCode` loop iteration (sources, lines
905-930): a non-terminal node pushes its first unvisited child; a terminal
node is marked visited, its pending uop (if any) is appended to the program,
and it is popped from the work stack.  `st.stack` holds the full current
work stack (top at the head). -/
def genTail (node : TREE_NODE) (p : TPath) (isTerminal : Bool) (st : GEN_STATE) : GEN_STATE :=
  if !isTerminal then
    let pushLeaf1 (st : GEN_STATE) : GEN_STATE :=
      match node.leaf1 with
      | some _ =>
        if !st.visited (p ++ [true]) then
          { st with stack := (p ++ [true]) :: st.stack,
                    visited := markV st.visited (p ++ [true]) }
        else st
      | none => st
    match node.leaf0 with
    | some _ =>
      if !st.visited (p ++ [false]) then
        { st with stack := (p ++ [false]) :: st.stack,
                  visited := markV st.visited (p ++ [false]) }
      else pushLeaf1 st
    | none => pushLeaf1 st
  else
    let st := { st with visited := markV st.visited p }
    let st :=
      match st.uops p with
      | some u => { st with emitted := st.emitted ++ [u], uops := setU st.uops p none }
      | none => st
    { st with stack := st.stack.tail }

/-- One iteration of the `COMPILER::generateUCode` work loop (sources,
lines 721-931): the big switch on the node kind followed by `genTail`.
`p` is the node path at the top of the work stack and `S` the rest of the
stack.  The struct-reference / function-call case performs the preflight
and the documented stack restructuring.  Leaf pointers that the C++
dereferences unconditionally are matched; the fallback branches for absent
leaves are unreachable for parser-produced trees. -/
def genStep (env : ENV) (root : TREE_NODE) (p : TPath) (S : List TPath)
    (st0 : GEN_STATE) : GEN_STATE :=
  match getNode root p with
  | none => { st0 with stack := S }
  | some node =>
    let st : GEN_STATE := { st0 with stack := p :: S }
    if node.op = TR_OP_FUNC_CALL then
      -- the uop was generated inside the TR_STRUCT_REF case
      genTail node p true st
    else if node.op = TR_STRUCT_REF then
      match node.leaf0, node.leaf1 with
      | some l0, some l1 =>
        if l1.op = TR_IDENTIFIER then
          let itemName := l0.valueStr.getD ""
          let propName := l1.valueStr.getD ""
          let vref := env.CreateVarRef itemName propName
          let comp :=
            match vref with
            | none =>
              st.comp.reportError .CST_CODEGEN ("Unrecognized item " ++ itemName)
                (l0.srcPos - (itemName.length : Int))
            | some r =>
              if r.varType = .VT_PARSE_ERROR then
                st.comp.reportError .CST_CODEGEN ("Unrecognized property " ++ propName)
                  (l1.srcPos - (propName.length : Int))
              else st.comp
          let st := { st with
            comp := comp,
            visited := markV (markV st.visited (p ++ [false])) (p ++ [true]),
            uops := setU st.uops p (some { m_op := TR_UOP_PUSH_VAR, m_ref := vref }) }
          genTail node p true st
        else if l1.op = TR_OP_FUNC_CALL then
          match l1.leaf0, l1.leaf1 with
          | some l10, some l11 =>
            let itemName := l0.valueStr.getD ""
            let vref := env.CreateVarRef itemName ""
            let comp :=
              match vref with
              | none =>
                st.comp.reportError .CST_CODEGEN ("Unrecognized item " ++ itemName)
                  (l0.srcPos - (itemName.length : Int))
              | some _ => st.comp
            let functionName := l10.valueStr.getD ""
            let func := env.CreateFuncCall functionName
            let comp :=
              match func with
              | none =>
                comp.reportError .CST_CODEGEN ("Unrecognized function " ++ functionName)
                  (l0.srcPos + 1)
              | some _ => comp
            let cp :=
              match func with
              | some f =>
                -- preflight the function call
                let paramStr := node.valueStr.getD ""
                let pre := st.pre.Push (some (VALUE.str paramStr))
                let pre := (f pre vref).Pop.2   -- invoke, then pop the return value
                if pre.IsErrorPending then (comp, pre)
                else
                  (comp.reportError .CST_CODEGEN pre.GetError.message
                    ((l11.srcPos - (paramStr.length : Int)) - 1), pre)
              | none => (comp, st.pre)
            -- replace the TR_STRUCT_REF with the TR_OP_FUNC_CALL node and
            -- its function parameter on the work stack
            let st := { st with
              comp := cp.1,
              pre := cp.2,
              visited :=
                markV (markV (markV (markV st.visited (p ++ [false])) (p ++ [true]))
                  (p ++ [true, false])) (p ++ [true, true]),
              stack := (p ++ [true, true]) :: (p ++ [true]) :: S,
              uops := setU st.uops (p ++ [true])
                (some { m_op := TR_OP_METHOD_CALL, m_func := func, m_ref := vref }) }
            genTail node p false st
          | _, _ => genTail node p false st
        else genTail node p false st
      | _, _ => genTail node p false st
    else if node.op = TR_NUMBER then
      let vv : Rat × (TPath → Bool) :=
        match node.valueStr with
        | none => (0, st.visited)
        | some s =>
          match node.leaf0 with
          | some son =>
            if son.op = TR_UNIT then (env.Convert s son.valueIdx, markV st.visited (p ++ [false]))
            else (strToRat s, st.visited)
          | none => (strToRat s, st.visited)
      let st := { st with
        visited := vv.2,
        uops := setU st.uops p (some { m_op := TR_UOP_PUSH_VALUE, m_value := some (.num vv.1) }) }
      genTail node p true st
    else if node.op = TR_STRING then
      let st := { st with
        uops := setU st.uops p
          (some { m_op := TR_UOP_PUSH_VALUE, m_value := some (.str (node.valueStr.getD "")) }) }
      genTail node p true st
    else if node.op = TR_IDENTIFIER then
      let name := node.valueStr.getD ""
      let vref := env.CreateVarRef name ""
      let comp :=
        match vref with
        | none =>
          st.comp.reportError .CST_CODEGEN ("Unrecognized item " ++ name)
            (node.srcPos - (name.length : Int))
        | some _ => st.comp
      -- NOTE: the sources set a TR_UOP_PUSH_VALUE op here (carrying the
      -- variable reference), not a TR_UOP_PUSH_VAR op
      let st := { st with
        comp := comp,
        uops := setU st.uops p (some { m_op := TR_UOP_PUSH_VALUE, m_ref := vref }) }
      genTail node p true st
    else
      let st := { st with uops := setU st.uops p (some { m_op := node.op }) }
      let isT :=
        (match node.leaf0 with
         | none => true
         | some _ => st.visited (p ++ [false])) &&
        (match node.leaf1 with
         | none => true
         | some _ => st.visited (p ++ [true]))
      genTail node p isT st

/-- The `while( !stack.empty() )` loop of `COMPILER::generateUCode`, with a
fuel bound (the C++ loop is unbounded; every theorem below is conditional
on the loop finishing within the given fuel). -/
def genLoop (env : ENV) (root : TREE_NODE) : Nat → GEN_STATE → Option GEN_STATE
  | fuel, st =>
    match st.stack with
    | [] => some st
    | p :: S =>
      match fuel with
      | 0 => none
      | f + 1 => genLoop env root f (genStep env root p S st)

/-- `COMPILER::generateUCode` (sources, lines 699-936): an absent tree
emits the single literal-true instruction; otherwise the tree is prepared
and the work loop is run from a stack holding the root.  The C++ returns
`true` in both cases; `none` models only fuel exhaustion of the embedding.
The result is (return value, emitted program, compiler, preflight
context). -/
def generateUCode (env : ENV) (fuel : Nat) (c : COMPILER) (preCtx : CONTEXT) :
    Option (Bool × List UOP × COMPILER × CONTEXT) :=
  match c.m_tree with
  | none =>
    some (true, [{ m_op := TR_UOP_PUSH_VALUE, m_value := some (VALUE.num 1) }], c, preCtx)
  | some tree =>
    let root := prepareTree tree
    match genLoop env root fuel
        { stack := [([] : TPath)], visited := fun _ => false, uops := fun _ => none,
          emitted := [], comp := c, pre := preCtx } with
    | some st => some (true, st.emitted, st.comp, st.pre)
    | none => none

/-! ### The parser interface and `Compile` -/

/-- Modelled from the spec: the lemon-generated parser (`grammar.c`, not
part of the provided sources) is driven one token at a time.  Its grammar
actions can set the tree root (`setRoot`), signal completion (`parseOk`)
and report a syntax error (`%syntax_error` calls `COMPILER::parseError`);
no grammar action ever clears the error slot.  One `Parse` call is
modelled as a function of the opaque parser state and the fed token,
returning the actions performed and the next parser state. -/
structure PARSE_EFFECT where
  setRoot : Option TREE_NODE := none
  parseOk : Bool := false
  syntaxError : Option String := none

def ParseFn := Nat → Nat → T_TOKEN → PARSE_EFFECT × Nat

/-- Apply one `Parse` call's grammar actions to the compiler instance. -/
def applyParseEffect (c : COMPILER) (e : PARSE_EFFECT) : COMPILER :=
  let c :=
    match e.setRoot with
    | some t => { c with m_tree := some t }
    | none => c
  let c := if e.parseOk then { c with m_parseFinished := true } else c
  match e.syntaxError with
  | some s => c.parseError s
  | none => c

/-- The token-feeding do-while loop of `COMPILER::Compile` (sources, lines
280-301), with a fuel bound: record the source position, fetch a token,
feed it to the parser, abort on a pending error, and on completion or end
of input feed the reset token (id 0) and generate code. -/
def compileLoop (env : ENV) (parse : ParseFn) (genFuel : Nat) :
    Nat → Nat → COMPILER → CONTEXT → Option (Bool × List UOP × COMPILER × CONTEXT)
  | 0, _, _, _ => none
  | f + 1, ps, c, pre =>
    let c := { c with m_sourcePos := (c.m_tokenizer.GetPos : Int) }
    let tr := COMPILER.getToken 4 c
    let tok := tr.1
    let c := tr.2
    let er := parse ps tok.token tok
    let c := applyParseEffect c er.1
    if c.m_errorStatus.pendingError then some (false, [], c, pre)
    else if c.m_parseFinished || tok.token = G_ENDS then
      -- reset the parser by passing zero as token id
      let er2 := parse er.2 0 tok
      let c := applyParseEffect c er2.1
      generateUCode env genFuel c pre
    else if tok.token ≠ 0 then compileLoop env parse genFuel f er.2 c pre
    else generateUCode env genFuel c pre

/-- `COMPILER::Compile` (sources, lines 257-304): reset the instance for
the new source string, special-case the empty input, otherwise run the
token-feeding loop and generate code. -/
def COMPILER.Compile (c : COMPILER) (env : ENV) (parse : ParseFn) (genFuel : Nat)
    (aString : List Char) (preCtx : CONTEXT) :
    Option (Bool × List UOP × COMPILER × CONTEXT) :=
  let c := c.newString aString
  let c := { c with m_tree := none, m_parseFinished := false }
  if aString.isEmpty then
    let c := { c with m_parseFinished := true }
    generateUCode env genFuel c preCtx
  else
    compileLoop env parse genFuel (aString.length + 2) 0 c preCtx

/-! ### Concrete environments and parse trees used by the theorems

The lemon grammar (`grammar.c` / `grammar.h`) is not part of the provided
sources, so the concrete ASTs below are modelled from the spec: `.` binds an
identifier on the left to a property identifier or function call on the
right, forming a struct-reference node.  A node records in `srcPos` the
compiler source position at the moment its grammar action runs, which with
one token of LALR lookahead is the position just after the identifier text;
the generator subtracts the identifier length to point at its start. -/

/-- A host resolver that knows no items and no functions. -/
def emptyEnv : ENV := ⟨fun _ _ => none, fun _ => none, fun _ _ => 0⟩

/-- Modelled from the spec: the AST for the input `item.prop`
(offsets: `item` at 0-3, `.` at 4, `prop` at 5-8). -/
def itemPropTree : TREE_NODE :=
  .mk TR_STRUCT_REF none 0 0 9
    (some (.mk TR_IDENTIFIER (some "item") 0 0 4 none none))
    (some (.mk TR_IDENTIFIER (some "prop") 0 0 9 none none))

/-- A host resolver that knows the item but reports every property as a
parse error (unknown property). -/
def parseErrorEnv : ENV :=
  ⟨fun _ _ => some ⟨.VT_PARSE_ERROR, fun _ => .num 0⟩, fun _ => none, fun _ _ => 0⟩

/-- Modelled from the spec: the AST for the bare identifier `foo`. -/
def fooTree : TREE_NODE := .mk TR_IDENTIFIER (some "foo") 0 0 3 none none

/-- A host resolver binding every item to a variable whose current value
is 42. -/
def fooEnv : ENV :=
  ⟨fun _ _ => some ⟨.VT_NUMERIC, fun _ => .num 42⟩, fun _ => none, fun _ _ => 0⟩

/-- Modelled from the spec: the AST for `obj.fn('x')` (offsets: `obj` at
0-2, `fn` at 4-5, the argument text `x` at 7) — a struct-reference node
whose right child is a function-call node carrying the function name and
the argument; the argument text is also stored on the struct-reference
node itself, where the preflight reads it. -/
def objFnTree : TREE_NODE :=
  .mk TR_STRUCT_REF (some "x") 0 0 10
    (some (.mk TR_IDENTIFIER (some "obj") 0 0 3 none none))
    (some (.mk TR_OP_FUNC_CALL none 0 0 10
      (some (.mk TR_IDENTIFIER (some "fn") 0 0 6 none none))
      (some (.mk TR_STRING (some "x") 0 0 8 none none))))

/-- A well-behaved host function: pops its argument and pushes one result,
reporting no error. -/
def fnOkEnv : ENV :=
  ⟨fun _ _ => some ⟨.VT_UNDEFINED, fun _ => .num 0⟩,
   fun _ => some (fun ctx _ => ctx.Pop.2.Push (some (.num 7))),
   fun _ _ => 0⟩

/-- A host function that pops its argument, pushes a result and reports a
runtime error through the context. -/
def fnErrEnv : ENV :=
  ⟨fun _ _ => some ⟨.VT_UNDEFINED, fun _ => .num 0⟩,
   fun _ => some (fun ctx _ => ((ctx.Pop.2).Push (some (.num 0))).ReportError "type mismatch"),
   fun _ _ => 0⟩

/-- Modelled from the spec: the AST for `!5` — a boolean-not node over a
numeric literal. -/
def notFiveTree : TREE_NODE :=
  .mk TR_OP_BOOL_NOT none 0 0 1 (some (.mk TR_NUMBER (some "5") 0 0 2 none none)) none

/-- Modelled from the spec: the AST for the single numeric literal `2`. -/
def twoTree : TREE_NODE := .mk TR_NUMBER (some "2") 0 0 1 none none

/-- Modelled from the spec: the AST for `a + b` with both identifiers
unresolved by `emptyEnv` (offsets: `a` at 0, `b` at 4). -/
def aPlusBTree : TREE_NODE :=
  .mk TR_OP_ADD none 0 0 2
    (some (.mk TR_IDENTIFIER (some "a") 0 0 1 none none))
    (some (.mk TR_IDENTIFIER (some "b") 0 0 5 none none))

/-! ### Predicates for the stack-balance theorem -/

/-- `q` lies in the subtree addressed by `p` (inclusively). -/
def pathUnder (p q : TPath) : Prop := ∃ r, q = p ++ r

/-- `q` is a proper descendant of `p`. -/
def strictUnder (p q : TPath) : Prop := ∃ r, r ≠ [] ∧ q = p ++ r

/-- An instruction block whose execution pushes exactly one stack slot and
leaves the rest of the operand stack unchanged. -/
def pushOne (B : List UOP) : Prop :=
  ∀ ctx : CONTEXT, ∃ v, (execList B ctx).stack = v :: ctx.stack

/-- Every identifier, property and function resolves ("successfully
compiled" in the sense of the spec: no CodeGen resolution failure). -/
def resolverTotal (env : ENV) : Prop :=
  (∀ a b, (env.CreateVarRef a b).isSome = true) ∧
  (∀ n, (env.CreateFuncCall n).isSome = true)

/-- The host function contract of the spec: a function pops its single
argument (pushed by the generator immediately before the call) and pushes
exactly one result, leaving the rest of the stack alone. -/
def funcsOk (env : ENV) : Prop :=
  ∀ n f, env.CreateFuncCall n = some f →
    ∀ (ctx : CONTEXT) (vr : Option VAR_REF) v s,
      ctx.stack = v :: s → ∃ w, (f ctx vr).stack = w :: s

/-- The binary-operator opcodes the grammar can produce. -/
def binaryOps : List Nat :=
  [TR_OP_MUL, TR_OP_DIV, TR_OP_ADD, TR_OP_SUB, TR_OP_LESS, TR_OP_GREATER,
   TR_OP_LESS_EQUAL, TR_OP_GREATER_EQUAL, TR_OP_EQUAL, TR_OP_NOT_EQUAL,
   TR_OP_BOOL_AND, TR_OP_BOOL_OR]

/-- The AST shapes the parser can hand to the code generator (modelled from
the spec's grammar description): literals, identifiers, struct references
(property or function call) and unary/binary operator nodes.  Function-name
nodes may carry arbitrary leaf pointers (the lemon parser leaves them
uninitialized; `prepareTree` nulls them). -/
inductive ParserShaped : TREE_NODE → Prop where
  | numPlain (s : String) (vn : Rat) (vi sp : Int) :
      ParserShaped (.mk TR_NUMBER (some s) vn vi sp none none)
  | numUnit (s : String) (vn : Rat) (vi sp : Int) (uvs : Option String) (uvn : Rat)
      (uvi usp : Int) (ul0 ul1 : Option TREE_NODE) :
      ParserShaped (.mk TR_NUMBER (some s) vn vi sp
        (some (.mk TR_UNIT uvs uvn uvi usp ul0 ul1)) none)
  | strLit (s : String) (vn : Rat) (vi sp : Int) :
      ParserShaped (.mk TR_STRING (some s) vn vi sp none none)
  | ident (s : String) (vn : Rat) (vi sp : Int) :
      ParserShaped (.mk TR_IDENTIFIER (some s) vn vi sp none none)
  | srefProp (vs : Option String) (vn : Rat) (vi sp : Int)
      (is : String) (ivn : Rat) (ivi isp : Int)
      (ps : String) (pvn : Rat) (pvi psp : Int) :
      ParserShaped (.mk TR_STRUCT_REF vs vn vi sp
        (some (.mk TR_IDENTIFIER (some is) ivn ivi isp none none))
        (some (.mk TR_IDENTIFIER (some ps) pvn pvi psp none none)))
  | srefFunc (vs : Option String) (vn : Rat) (vi sp : Int)
      (is : String) (ivn : Rat) (ivi isp : Int)
      (fvn : Rat) (fvi fsp : Int) (fvs : Option String)
      (nop : Nat) (nvs : Option String) (nvn : Rat) (nvi nsp : Int)
      (nl0 nl1 : Option TREE_NODE)
      (param : TREE_NODE) (hparam : ParserShaped param) :
      ParserShaped (.mk TR_STRUCT_REF vs vn vi sp
        (some (.mk TR_IDENTIFIER (some is) ivn ivi isp none none))
        (some (.mk TR_OP_FUNC_CALL fvs fvn fvi fsp
          (some (.mk nop nvs nvn nvi nsp nl0 nl1))
          (some param))))
  | binop (op : Nat) (hop : op ∈ binaryOps) (vs : Option String) (vn : Rat) (vi sp : Int)
      (l r : TREE_NODE) (hl : ParserShaped l) (hr : ParserShaped r) :
      ParserShaped (.mk op vs vn vi sp (some l) (some r))
  | notop (vs : Option String) (vn : Rat) (vi sp : Int)
      (l : TREE_NODE) (hl : ParserShaped l) :
      ParserShaped (.mk TR_OP_BOOL_NOT vs vn vi sp (some l) none)

/-- All configured unit names consist of alphanumeric characters (true of
any realistic unit resolver; needed for the longest-match-first property of
unit-suffix matching). -/
def unitNamesOk (units : List (List Char)) : Prop :=
  ∀ u ∈ units, ∀ ch ∈ u, ch.isAlphanum = true

/-- A parser model that performs no grammar action (used to witness
theorems that hold for every parser). -/
def idleParse : ParseFn := fun ps _ _ => ({}, ps)

/-- A compiler instance carrying a pending error from a previous failed
compile. -/
def staleErrorCompiler : COMPILER :=
  { COMPILER.new with
    m_errorStatus :=
      { pendingError := true, stage := .CST_CODEGEN, message := "previous failure", srcPos := 0 } }

/-- A total, well-behaved host environment: every name resolves to a
numeric variable and every function pops its single argument and pushes
one numeric result without reporting errors. -/
def totalEnv : ENV :=
  ⟨fun _ _ => some ⟨.VT_NUMERIC, fun _ => .num 42⟩,
   fun _ => some (fun ctx _ => ctx.Pop.2.Push (some (VALUE.num 7))),
   fun _ _ => 0⟩


/-! ### C1: binary operator execution -/

/-- C1: for every binary opcode executed by `UOP::Exec` against a context
whose stack holds the two operands (first popped = right operand `b` on
top, second popped = left operand `a` below it), execution pops both,
coerces them to numeric — except equality/inequality, which compare at
`VALUE` level — computes the result per the operator (add/sub/mul/div;
1.0/0.0 encoding for relational, equality and logical and/or with a
nonzero test on each numeric operand), and pushes exactly one numeric
result.  In particular `abc == abc` yields 1.0 and `abc != xyz`
yields 1.0. -/
theorem C1_binary_operator_semantics (a b : Option VALUE) (rest : List (Option VALUE))
    (err : ERROR_STATUS) (tr : List String) :
    (UOP.Exec { m_op := TR_OP_ADD } ⟨b :: a :: rest, err, tr⟩ =
      ⟨some (.num (coerceNum a + coerceNum b)) :: rest, err, tr⟩) ∧
    (UOP.Exec { m_op := TR_OP_SUB } ⟨b :: a :: rest, err, tr⟩ =
      ⟨some (.num (coerceNum a - coerceNum b)) :: rest, err, tr⟩) ∧
    (UOP.Exec { m_op := TR_OP_MUL } ⟨b :: a :: rest, err, tr⟩ =
      ⟨some (.num (coerceNum a * coerceNum b)) :: rest, err, tr⟩) ∧
    (UOP.Exec { m_op := TR_OP_DIV } ⟨b :: a :: rest, err, tr⟩ =
      ⟨some (.num (coerceNum a / coerceNum b)) :: rest, err, tr⟩) ∧
    (UOP.Exec { m_op := TR_OP_LESS_EQUAL } ⟨b :: a :: rest, err, tr⟩ =
      ⟨some (.num (if coerceNum a ≤ coerceNum b then 1 else 0)) :: rest, err, tr⟩) ∧
    (UOP.Exec { m_op := TR_OP_GREATER_EQUAL } ⟨b :: a :: rest, err, tr⟩ =
      ⟨some (.num (if coerceNum a ≥ coerceNum b then 1 else 0)) :: rest, err, tr⟩) ∧
    (UOP.Exec { m_op := TR_OP_LESS } ⟨b :: a :: rest, err, tr⟩ =
      ⟨some (.num (if coerceNum a < coerceNum b then 1 else 0)) :: rest, err, tr⟩) ∧
    (UOP.Exec { m_op := TR_OP_GREATER } ⟨b :: a :: rest, err, tr⟩ =
      ⟨some (.num (if coerceNum a > coerceNum b then 1 else 0)) :: rest, err, tr⟩) ∧
    (UOP.Exec { m_op := TR_OP_EQUAL } ⟨b :: a :: rest, err, tr⟩ =
      ⟨some (.num (match a, b with
                   | some x, some y => if x.EqualTo y then 1 else 0
                   | _, _ => 0)) :: rest, err, tr⟩) ∧
    (UOP.Exec { m_op := TR_OP_NOT_EQUAL } ⟨b :: a :: rest, err, tr⟩ =
      ⟨some (.num (match a, b with
                   | some x, some y => if x.EqualTo y then 0 else 1
                   | _, _ => 1)) :: rest, err, tr⟩) ∧
    (UOP.Exec { m_op := TR_OP_BOOL_AND } ⟨b :: a :: rest, err, tr⟩ =
      ⟨some (.num (if coerceNum a ≠ 0 ∧ coerceNum b ≠ 0 then 1 else 0)) :: rest, err, tr⟩) ∧
    (UOP.Exec { m_op := TR_OP_BOOL_OR } ⟨b :: a :: rest, err, tr⟩ =
      ⟨some (.num (if coerceNum a ≠ 0 ∨ coerceNum b ≠ 0 then 1 else 0)) :: rest, err, tr⟩) ∧
    ((UCODE.Run [ { m_op := TR_UOP_PUSH_VALUE, m_value := some (.str "abc") },
                  { m_op := TR_UOP_PUSH_VALUE, m_value := some (.str "abc") },
                  { m_op := TR_OP_EQUAL } ] CONTEXT.empty).1 = some (.num 1)) ∧
    ((UCODE.Run [ { m_op := TR_UOP_PUSH_VALUE, m_value := some (.str "abc") },
                  { m_op := TR_UOP_PUSH_VALUE, m_value := some (.str "xyz") },
                  { m_op := TR_OP_NOT_EQUAL } ] CONTEXT.empty).1 = some (.num 1)) :=
  ⟨rfl, rfl, rfl, rfl, rfl, rfl, rfl, rfl, rfl, rfl, rfl, rfl, rfl, rfl⟩

/-! ### C7: the empty input -/

/-- C7: compiling the empty input string succeeds for any compiler
instance, parser and resolver, producing the single push-literal(1.0)
instruction, and running that program returns the numeric value 1.0. -/
theorem C7_empty_input_compiles_to_true (c : COMPILER) (env : ENV) (parse : ParseFn)
    (genFuel : Nat) (preCtx : CONTEXT) :
    (∃ cOut, c.Compile env parse genFuel [] preCtx =
      some (true, [{ m_op := TR_UOP_PUSH_VALUE, m_value := some (VALUE.num 1) }], cOut, preCtx)) ∧
    UCODE.Run [{ m_op := TR_UOP_PUSH_VALUE, m_value := some (VALUE.num 1) }] CONTEXT.empty =
      (some (VALUE.num 1), CONTEXT.empty) := by
  constructor
  · exact ⟨_, rfl⟩
  · rfl

/-! ### C3: errors do not abort code generation -/

/-- C3 (code bug): `COMPILER::generateUCode` can never report failure —
whenever its work loop finishes, the returned flag is `true`, regardless of
any CodeGen errors raised along the way; and concretely, compiling
`item.prop` against a resolver that knows no items leaves a pending
CodeGen error yet returns `true` together with a non-empty bytecode
program (a push-var instruction holding a null reference), contradicting
the claim that generation aborts, the compile fails and the program is
discarded. -/
theorem C3_generateUCode_never_fails :
    (∀ (env : ENV) (fuel : Nat) (c : COMPILER) (pre : CONTEXT) r,
      generateUCode env fuel c pre = some r → r.1 = true) ∧
    (∃ cOut preOut,
      generateUCode emptyEnv 10 { COMPILER.new with m_tree := some itemPropTree }
          CONTEXT.empty =
        some (true, [{ m_op := TR_UOP_PUSH_VAR }], cOut, preOut) ∧
      cOut.m_errorStatus.pendingError = true ∧
      cOut.m_errorStatus.stage = .CST_CODEGEN) := by
  constructor
  · intro env fuel c pre r h
    unfold generateUCode at h
    rcases hc : c.m_tree with _ | tree
    · rw [hc] at h
      injection h with h
      rw [← h]
    · rw [hc] at h
      dsimp only at h
      rcases hl : genLoop env (prepareTree tree) fuel
          { stack := [([] : TPath)], visited := fun _ => false, uops := fun _ => none,
            emitted := [], comp := c, pre := pre } with _ | st
      · rw [hl] at h
        exact absurd h (by simp)
      · rw [hl] at h
        injection h with h
        rw [← h]
  · exact ⟨_, _, rfl, rfl, rfl⟩

/-- Witness for the universally quantified part of
`C3_generateUCode_never_fails`, applied at a concrete compiler state. -/
theorem C3_generateUCode_never_fails_witness :
    generateUCode emptyEnv 5 COMPILER.new CONTEXT.empty =
      some (true, [{ m_op := TR_UOP_PUSH_VALUE, m_value := some (VALUE.num 1) }],
        COMPILER.new, CONTEXT.empty) ∧
    ((true, [{ m_op := TR_UOP_PUSH_VALUE, m_value := some (VALUE.num 1) }],
      COMPILER.new, CONTEXT.empty) : Bool × List UOP × COMPILER × CONTEXT).1 = true :=
  ⟨rfl, C3_generateUCode_never_fails.1 emptyEnv 5 COMPILER.new CONTEXT.empty _ rfl⟩

/-! ### C4: the preflight error check is inverted -/

/-- C4 (code bug): the preflight of `obj.fn(x)` translates the host error
exactly the wrong way around.  With a well-behaved host function
(`fnOkEnv`: no error raised) a CodeGen error is reported — with the empty
message read out of the pristine preflight context — while with a host
function that does report an error (`fnErrEnv`) no CodeGen error is raised
at all and the call is accepted (the method-call instruction is emitted and
generation reports success). -/
theorem C4_preflight_check_inverted :
    (∃ r, generateUCode fnOkEnv 10 { COMPILER.new with m_tree := some objFnTree }
        CONTEXT.empty = some r ∧
      r.2.2.1.m_errorStatus.pendingError = true ∧
      r.2.2.1.m_errorStatus.stage = .CST_CODEGEN ∧
      r.2.2.1.m_errorStatus.message = "" ∧
      r.2.2.2.errorStatus.pendingError = false) ∧
    (∃ r, generateUCode fnErrEnv 10 { COMPILER.new with m_tree := some objFnTree }
        CONTEXT.empty = some r ∧
      r.2.2.1.m_errorStatus.pendingError = false ∧
      r.2.2.2.errorStatus.pendingError = true ∧
      r.1 = true ∧
      r.2.1.map (fun u => u.m_op) = [TR_UOP_PUSH_VALUE, TR_OP_METHOD_CALL]) :=
  ⟨⟨_, rfl, rfl, rfl, rfl, rfl⟩, ⟨_, rfl, rfl, rfl, rfl, rfl⟩⟩

/-! ### C5: `item.prop` resolution errors -/

/-- C5 (code bug): for `item.prop`, an unknown item records a
CodeGen-stage error whose offset 0 points at the start of `item`, and a
known item with an unknown property records a CodeGen-stage error whose
offset 5 points at the start of `prop` — but in both cases the compile
still reports success (`true`), contradicting the claim that Compile
fails. -/
theorem C5_item_prop_error_offsets :
    (∃ r, generateUCode emptyEnv 10 { COMPILER.new with m_tree := some itemPropTree }
        CONTEXT.empty = some r ∧
      r.1 = true ∧
      r.2.2.1.m_errorStatus =
        { pendingError := true, stage := .CST_CODEGEN,
          message := "Unrecognized item item", srcPos := 0 }) ∧
    (∃ r, generateUCode parseErrorEnv 10 { COMPILER.new with m_tree := some itemPropTree }
        CONTEXT.empty = some r ∧
      r.1 = true ∧
      r.2.2.1.m_errorStatus =
        { pendingError := true, stage := .CST_CODEGEN,
          message := "Unrecognized property prop", srcPos := 5 }) :=
  ⟨⟨_, rfl, rfl, rfl⟩, ⟨_, rfl, rfl, rfl⟩⟩

/-! ### C6: bare identifiers emit the wrong instruction -/

/-- C6 (code bug): for the bare identifier `foo`, the generator calls the
resolver with (name, empty property); if that fails it raises the
"unrecognized item" CodeGen error at the identifier start (offset 0).  But
on success it emits a `TR_UOP_PUSH_VALUE` instruction — not the
push-variable instruction the claim describes — whose literal value slot
is null, so executing the program pushes a null slot and returns no value,
never consulting the bound reference (which would have produced 42). -/
theorem C6_identifier_emits_push_value :
    (∃ r, generateUCode fooEnv 10 { COMPILER.new with m_tree := some fooTree }
        CONTEXT.empty = some r ∧
      r.2.1.map (fun u => u.m_op) = [TR_UOP_PUSH_VALUE] ∧
      r.2.1.map (fun u => u.m_value) = [none] ∧
      (execList r.2.1 CONTEXT.empty).stack = [none] ∧
      (UCODE.Run r.2.1 CONTEXT.empty).1 = none ∧
      (UCODE.Run r.2.1 CONTEXT.empty).1 ≠ some (VALUE.num 42)) ∧
    TR_UOP_PUSH_VALUE ≠ TR_UOP_PUSH_VAR ∧
    (∃ r, generateUCode emptyEnv 10 { COMPILER.new with m_tree := some fooTree }
        CONTEXT.empty = some r ∧
      r.2.2.1.m_errorStatus =
        { pendingError := true, stage := .CST_CODEGEN,
          message := "Unrecognized item foo", srcPos := 0 }) :=
  ⟨⟨_, rfl, rfl, rfl, rfl, rfl, by decide⟩, by decide, ⟨_, rfl, rfl⟩⟩

/-! ### C9: the error-status slot lifecycle -/

theorem lexString_errorStatus (c : COMPILER) :
    (c.lexString).2.2.m_errorStatus = c.m_errorStatus := rfl

/-- Case split on an if-then-else, phrased as an eliminator (used to walk
the long classification chain of the lexer without term blowup). -/
theorem iteP {α : Sort _} (P : α → Prop) (b : Prop) [Decidable b] (x y : α)
    (hx : P x) (hy : P y) : P (if b then x else y) := by
  split
  · exact hx
  · exact hy

theorem lexDefaultBody_pending (c : COMPILER) (h : c.m_errorStatus.pendingError = true) :
    (c.lexDefaultBody).2.2.m_errorStatus.pendingError = true := by
  unfold COMPILER.lexDefaultBody
  repeat' apply iteP (fun r : Bool × T_TOKEN × COMPILER =>
    r.2.2.m_errorStatus.pendingError = true)
  all_goals first
  | rfl
  | exact h

theorem lexDefault_pending (c : COMPILER) (h : c.m_errorStatus.pendingError = true) :
    (c.lexDefault).2.2.m_errorStatus.pendingError = true := by
  unfold COMPILER.lexDefault
  split
  · exact h
  · exact lexDefaultBody_pending _ h

theorem getToken_pending (f : Nat) : ∀ c : COMPILER, c.m_errorStatus.pendingError = true →
    ((COMPILER.getToken f c).2).m_errorStatus.pendingError = true := by
  induction f with
  | zero => intro c h; exact h
  | succ f ih =>
    intro c h
    unfold COMPILER.getToken
    dsimp only
    cases hls : c.m_lexerState
    all_goals dsimp only
    · split
      · exact lexDefault_pending c h
      · exact ih _ (lexDefault_pending c h)
    · split
      · rw [lexString_errorStatus c]; exact h
      · exact ih _ (by rw [lexString_errorStatus c]; exact h)

theorem applyParseEffect_pending (c : COMPILER) (e : PARSE_EFFECT)
    (h : c.m_errorStatus.pendingError = true) :
    (applyParseEffect c e).m_errorStatus.pendingError = true := by
  unfold applyParseEffect
  rcases e with ⟨sr, ok, se⟩
  dsimp only
  rcases se with _ | s
  · rcases sr with _ | t <;> rcases ok <;> simp_all
  · rcases sr with _ | t <;> rcases ok <;>
      simp_all [COMPILER.parseError, COMPILER.reportError]

/-- With a pending error on entry, the compile loop aborts after feeding
the first token, returning `false` and no bytecode (the pending-error check
of `COMPILER::Compile`). -/
theorem compileLoop_aborts (env : ENV) (parse : ParseFn) (genFuel f ps : Nat)
    (c : COMPILER) (pre : CONTEXT) (h : c.m_errorStatus.pendingError = true) :
    ∃ cr, compileLoop env parse genFuel (f + 1) ps c pre = some (false, [], cr, pre) := by
  unfold compileLoop
  dsimp only
  have h2 := getToken_pending 4 { c with m_sourcePos := (c.m_tokenizer.GetPos : Int) } h
  have h3 := applyParseEffect_pending _
    (parse ps ((COMPILER.getToken 4
      { c with m_sourcePos := (c.m_tokenizer.GetPos : Int) }).1).token
      (COMPILER.getToken 4 { c with m_sourcePos := (c.m_tokenizer.GetPos : Int) }).1).1 h2
  rw [if_pos h3]
  exact ⟨_, rfl⟩

/-- C9 (code bug): the error-status slot is not managed as claimed.
`Clear` / `newString` (run at the start of every `Compile`) leave the
error slot untouched, so the pending flag is NOT false again at the start
of the next compile; `reportError` overwrites an already-set slot, and a
single code-generation pass over `a + b` with an empty resolver reports
twice (two callback invocations, final slot holding the second message) —
so the slot is not set at most once per call.  Consequently any compile of
a non-empty input on an instance with a stale pending error aborts with
`false` even though the parser was never given a chance to succeed. -/
theorem C9_error_slot_not_cleared_and_set_twice :
    (∀ c : COMPILER, (c.Clear).m_errorStatus = c.m_errorStatus) ∧
    (∀ (c : COMPILER) (s : List Char), (c.newString s).m_errorStatus = c.m_errorStatus) ∧
    (∀ (c : COMPILER) st1 m1 p1 st2 m2 p2,
      ((c.reportError st1 m1 p1).reportError st2 m2 p2).m_errorStatus.pendingError = true ∧
      ((c.reportError st1 m1 p1).reportError st2 m2 p2).m_errorStatus.message = m2) ∧
    (∃ r, generateUCode emptyEnv 10 { COMPILER.new with m_tree := some aPlusBTree }
        CONTEXT.empty = some r ∧
      r.2.2.1.m_callbackTrace = [("Unrecognized item a", 0), ("Unrecognized item b", 4)] ∧
      r.2.2.1.m_errorStatus.message = "Unrecognized item b") ∧
    (∀ (env : ENV) (parse : ParseFn) (genFuel : Nat) (pre : CONTEXT) (c : COMPILER),
      c.m_errorStatus.pendingError = true →
      ∃ cr, c.Compile env parse genFuel ['1'] pre = some (false, [], cr, pre)) := by
  refine ⟨fun c => rfl, fun c s => rfl, fun c st1 m1 p1 st2 m2 p2 => ⟨rfl, rfl⟩,
    ⟨_, rfl, rfl, rfl⟩, ?_⟩
  intro env parse genFuel pre c h
  have hpend :
      ({ (c.newString ['1']) with m_tree := none, m_parseFinished := false }
        : COMPILER).m_errorStatus.pendingError = true := h
  obtain ⟨cr, hcr⟩ := compileLoop_aborts env parse genFuel 2 0
    { (c.newString ['1']) with m_tree := none, m_parseFinished := false } pre hpend
  exact ⟨cr, hcr⟩

/-- Witness for `C9_error_slot_not_cleared_and_set_twice`: a concrete
instance with a stale pending error makes the next compile of the valid
input `1` fail. -/
theorem C9_error_slot_not_cleared_and_set_twice_witness :
    ∃ cr, staleErrorCompiler.Compile emptyEnv idleParse 5 ['1'] CONTEXT.empty =
      some (false, [], cr, CONTEXT.empty) :=
  C9_error_slot_not_cleared_and_set_twice.2.2.2.2 emptyEnv idleParse 5 CONTEXT.empty
    staleErrorCompiler rfl

/-! ### C10: the boolean-not opcode -/

/-- C10 counterexample: the compiled program for `!5` — push-literal(5)
followed by the boolean-not opcode — does NOT end with more than one Value
on the operand stack: running it leaves exactly one value (stack length 1),
refuting the claim's "ends with more than one Value" consequence at this
concrete input. -/
theorem C10_more_than_one_value_counterexample :
    ∃ r, generateUCode emptyEnv 10 { COMPILER.new with m_tree := some notFiveTree }
        CONTEXT.empty = some r ∧
      r.2.1.map (fun u => u.m_op) = [TR_UOP_PUSH_VALUE, TR_OP_BOOL_NOT] ∧
      (execList r.2.1 CONTEXT.empty).stack.length = 1 ∧
      ¬ 1 < (execList r.2.1 CONTEXT.empty).stack.length := by
  refine ⟨_, rfl, rfl, rfl, ?_⟩
  intro hlt
  revert hlt
  decide

/-- C10 amended: executing any opcode that matches the unary mask (and not
the binary mask) is a no-op on the runtime context — `UOP::Exec` pops no
operand and pushes no result — so a compiled program containing `!` leaves
its operand un-negated on the stack, but still ends with exactly ONE Value
on the operand stack (the un-negated operand, which `Run` pops and
returns; for `!5` the result is 5 rather than the correct 0). -/
theorem C10_unary_not_is_noop_amended :
    (∀ (u : UOP) (ctx : CONTEXT),
      u.m_op &&& TR_OP_BINARY_MASK = 0 → u.m_op &&& TR_OP_UNARY_MASK ≠ 0 →
      u.Exec ctx = ctx) ∧
    (∃ r, generateUCode emptyEnv 10 { COMPILER.new with m_tree := some notFiveTree }
        CONTEXT.empty = some r ∧
      r.2.1.map (fun u => u.m_op) = [TR_UOP_PUSH_VALUE, TR_OP_BOOL_NOT] ∧
      (execList r.2.1 CONTEXT.empty).stack = [some (VALUE.num 5)] ∧
      UCODE.Run r.2.1 CONTEXT.empty = (some (VALUE.num 5), CONTEXT.empty)) := by
  constructor
  · intro u ctx h1 h2
    unfold UOP.Exec
    rw [if_neg, if_neg, if_neg, if_neg, if_pos h2]
    · exact fun hh => hh h1
    · intro heq
      rw [heq] at h2
      exact h2 (by decide)
    · intro heq
      rw [heq] at h2
      exact h2 (by decide)
    · intro heq
      rw [heq] at h2
      exact h2 (by decide)
  · exact ⟨_, rfl, rfl, rfl, rfl⟩

/-- Witness for the universally quantified part of
`C10_unary_not_is_noop_amended`, applied to the boolean-not opcode. -/
theorem C10_unary_not_is_noop_amended_witness :
    UOP.Exec { m_op := TR_OP_BOOL_NOT } CONTEXT.empty = CONTEXT.empty :=
  C10_unary_not_is_noop_amended.1 { m_op := TR_OP_BOOL_NOT } CONTEXT.empty
    (by decide) (by decide)

/-! ### C8: unit-suffix matching -/

/-- Characterization of `TOKENIZER::MatchAhead`: the pattern must fit in
the remaining input, the text at the cursor must equal it, and either the
input ends right after it or the following character satisfies the stop
condition. -/
theorem MatchAhead_true_iff (tk : TOKENIZER) (pat : List Char) (stop : Char → Bool) :
    tk.MatchAhead pat stop = true ↔
      tk.m_pos + pat.length ≤ tk.m_str.length ∧
      (tk.m_str.drop tk.m_pos).take pat.length = pat ∧
      (tk.m_pos + pat.length = tk.m_str.length ∨
        stop (tk.m_str.getD (tk.m_pos + pat.length) (Char.ofNat 0)) = true) := by
  simp only [TOKENIZER.MatchAhead]
  by_cases h1 : (tk.m_str.length : Int) - (tk.m_pos : Int) < (pat.length : Int)
  · rw [if_pos h1]
    simp only [Bool.false_eq_true, false_iff]
    rintro ⟨hA, -, -⟩
    omega
  · rw [if_neg h1]
    by_cases h2 : (tk.m_str.drop tk.m_pos).take pat.length = pat
    · rw [if_pos h2]
      simp only [Bool.or_eq_true, decide_eq_true_eq]
      constructor
      · rintro (heq | hst)
        · exact ⟨by omega, h2, Or.inl (by omega)⟩
        · exact ⟨by omega, h2, Or.inr hst⟩
      · rintro ⟨-, -, (heq | hst)⟩
        · exact Or.inl (by omega)
        · exact Or.inr hst
    · rw [if_neg h2]
      simp only [Bool.false_eq_true, false_iff]
      rintro ⟨-, hB, -⟩
      exact h2 hB

/-- If two unit names both match ahead under the non-alphanumeric stop
condition and the longer one is alphanumeric, they are the same name: the
suffix bound prevents any proper-prefix match. -/
theorem unit_match_eq_of_le (tk : TOKENIZER) (u v : List Char)
    (hvAl : ∀ ch ∈ v, ch.isAlphanum = true)
    (hle : u.length ≤ v.length)
    (hu : tk.MatchAhead u (fun ch => !ch.isAlphanum) = true)
    (hv : tk.MatchAhead v (fun ch => !ch.isAlphanum) = true) : u = v := by
  rw [MatchAhead_true_iff] at hu hv
  obtain ⟨hu1, hu2, hu3⟩ := hu
  obtain ⟨hv1, hv2, hv3⟩ := hv
  rcases Nat.lt_or_ge u.length v.length with hlt | hge
  · exfalso
    have hpos : tk.m_pos + u.length < tk.m_str.length := by omega
    have hstop : (tk.m_str.getD (tk.m_pos + u.length) (Char.ofNat 0)).isAlphanum = false := by
      rcases hu3 with h | h
      · omega
      · simpa using h
    have hchar : v[u.length]? = tk.m_str[tk.m_pos + u.length]? := by
      rw [← hv2, List.getElem?_take, if_pos hlt, List.getElem?_drop]
    have hsome : tk.m_str[tk.m_pos + u.length]? =
        some (tk.m_str.getD (tk.m_pos + u.length) (Char.ofNat 0)) := by
      rw [List.getElem?_eq_getElem hpos, List.getD_eq_getElem?_getD,
        List.getElem?_eq_getElem hpos]
      rfl
    have hmem : tk.m_str.getD (tk.m_pos + u.length) (Char.ofNat 0) ∈ v :=
      List.getElem?_mem (by rw [hchar, hsome])
    have half := hvAl _ hmem
    rw [hstop] at half
    exact Bool.false_ne_true half
  · have heq : u.length = v.length := Nat.le_antisymm hle hge
    rw [← hu2, ← hv2, heq]

/-- No matching unit name means `resolveUnits` reports -1 and leaves the
tokenizer untouched. -/
theorem resolveUnitsLoop_no_match (tk : TOKENIZER) :
    ∀ (units : List (List Char)) (k : Nat),
      (∀ u ∈ units, tk.MatchAhead u (fun ch => !ch.isAlphanum) = false) →
      resolveUnitsLoop tk units k = (-1, tk) := by
  intro units
  induction units with
  | nil => intro k h; rfl
  | cons w rest ih =>
    intro k h
    unfold resolveUnitsLoop
    rw [if_neg]
    · exact ih (k + 1) (fun u hu => h u (List.mem_cons_of_mem w hu))
    · rw [h w (List.mem_cons_self w rest)]
      simp

/-- A matching unit name is found by `resolveUnits`: the result id (offset
by the running counter `k`) indexes a unit equal to the given name, and the
tokenizer is advanced past it.  Uniqueness of the match is assumed (it is
discharged by `unit_match_unique` below). -/
theorem resolveUnitsLoop_found (tk : TOKENIZER) :
    ∀ (units : List (List Char)) (k : Nat) (u : List Char), u ∈ units →
      tk.MatchAhead u (fun ch => !ch.isAlphanum) = true →
      (∀ v ∈ units, tk.MatchAhead v (fun ch => !ch.isAlphanum) = true → v = u) →
      ∃ j, resolveUnitsLoop tk units k = (((k + j : Nat) : Int), tk.NextChar u.length) ∧
        units.getD j [] = u := by
  intro units
  induction units with
  | nil => intro k u hu; exact absurd hu (List.not_mem_nil u)
  | cons w rest ih =>
    intro k u hu hmatch huniq
    by_cases hw : tk.MatchAhead w (fun ch => !ch.isAlphanum) = true
    · have hwu : w = u := huniq w (List.mem_cons_self w rest) hw
      refine ⟨0, ?_, ?_⟩
      · unfold resolveUnitsLoop
        rw [if_pos hw, hwu]
        rfl
      · simpa using hwu
    · have hur : u ∈ rest := by
        rcases List.mem_cons.mp hu with rfl | hr
        · exact absurd hmatch hw
        · exact hr
      obtain ⟨j, hj, hgd⟩ := ih (k + 1) u hur hmatch
        (fun v hv hmv => huniq v (List.mem_cons_of_mem w hv) hmv)
      refine ⟨j + 1, ?_, ?_⟩
      · unfold resolveUnitsLoop
        rw [if_neg hw, hj]
        congr 1
        omega
      · simpa using hgd

/-- C8: unit-suffix matching is longest-match-first and suffix-bounded.
(i) A candidate matches only if the input ends right after it or the
following character is not alphanumeric; (ii) a candidate followed by an
alphanumeric character never matches; (iii) if no configured name matches,
`resolveUnits` yields -1 (the text is not tokenized as a unit) and the
cursor stays put; (iv) under alphanumeric unit names at most one configured
name can match at a given position — so the first match is also the longest
match — and (v) when a name matches, `resolveUnits` returns its index and
advances past exactly that name. -/
theorem C8_unit_suffix_matching :
    (∀ (tk : TOKENIZER) (u : List Char),
      tk.MatchAhead u (fun ch => !ch.isAlphanum) = true →
      tk.m_pos + u.length = tk.m_str.length ∨
        (tk.m_str.getD (tk.m_pos + u.length) (Char.ofNat 0)).isAlphanum = false) ∧
    (∀ (tk : TOKENIZER) (u : List Char),
      tk.m_pos + u.length < tk.m_str.length →
      (tk.m_str.getD (tk.m_pos + u.length) (Char.ofNat 0)).isAlphanum = true →
      tk.MatchAhead u (fun ch => !ch.isAlphanum) = false) ∧
    (∀ (tk : TOKENIZER) (units : List (List Char)),
      (∀ u ∈ units, tk.MatchAhead u (fun ch => !ch.isAlphanum) = false) →
      resolveUnitsLoop tk units 0 = (-1, tk)) ∧
    (∀ (tk : TOKENIZER) (units : List (List Char)), unitNamesOk units →
      ∀ u v, u ∈ units → v ∈ units →
      tk.MatchAhead u (fun ch => !ch.isAlphanum) = true →
      tk.MatchAhead v (fun ch => !ch.isAlphanum) = true → u = v) ∧
    (∀ (tk : TOKENIZER) (units : List (List Char)) (u : List Char), unitNamesOk units →
      u ∈ units → tk.MatchAhead u (fun ch => !ch.isAlphanum) = true →
      ∃ j : Nat, resolveUnitsLoop tk units 0 = ((j : Int), tk.NextChar u.length) ∧
        units.getD j [] = u) := by
  have huniq : ∀ (tk : TOKENIZER) (units : List (List Char)), unitNamesOk units →
      ∀ u v, u ∈ units → v ∈ units →
      tk.MatchAhead u (fun ch => !ch.isAlphanum) = true →
      tk.MatchAhead v (fun ch => !ch.isAlphanum) = true → u = v := by
    intro tk units hok u v hu hv hmu hmv
    rcases Nat.le_total u.length v.length with h | h
    · exact unit_match_eq_of_le tk u v (hok v hv) h hmu hmv
    · exact (unit_match_eq_of_le tk v u (hok u hu) h hmv hmu).symm
  refine ⟨?_, ?_, ?_, huniq, ?_⟩
  · intro tk u h
    rcases ((MatchAhead_true_iff tk u _).mp h).2.2 with h' | h'
    · exact Or.inl h'
    · exact Or.inr (by simpa using h')
  · intro tk u hlt hal
    by_contra hne
    have h := eq_true_of_ne_false (fun hf => hne hf)
    rcases ((MatchAhead_true_iff tk u _).mp h).2.2 with h' | h'
    · omega
    · rw [hal] at h'
      simp at h'
  · intro tk units h
    exact resolveUnitsLoop_no_match tk units 0 h
  · intro tk units u hok hu hmu
    obtain ⟨j, hj, hgd⟩ := resolveUnitsLoop_found tk units 0 u hu hmu
      (fun v hv hmv => huniq tk units hok v u hv hu hmv hmu)
    exact ⟨j, by simpa using hj, hgd⟩

/-- Witness for `C8_unit_suffix_matching`: with the default unit names, the
input `3mm` at cursor 1 matches the unit `mm` (index 0) and the cursor
advances past it. -/
theorem C8_unit_suffix_matching_witness :
    ∃ j : Nat, resolveUnitsLoop ⟨['3', 'm', 'm'], 1⟩ defaultUnits 0 =
      ((j : Int), TOKENIZER.NextChar ⟨['3', 'm', 'm'], 1⟩ ['m', 'm'].length) ∧
      defaultUnits.getD j [] = ['m', 'm'] :=
  C8_unit_suffix_matching.2.2.2.2 ⟨['3', 'm', 'm'], 1⟩ defaultUnits ['m', 'm']
    (by unfold unitNamesOk; decide) (by decide) (by decide)

/-! ### C2: infrastructure for the stack-balance theorem -/

theorem execList_append (A B : List UOP) (ctx : CONTEXT) :
    execList (A ++ B) ctx = execList B (execList A ctx) := by
  unfold execList
  rw [List.foldl_append]

theorem genLoop_nil (env : ENV) (root : TREE_NODE) (f : Nat) (st : GEN_STATE)
    (h : st.stack = []) : genLoop env root f st = some st := by
  unfold genLoop
  rw [h]

theorem genLoop_cons (env : ENV) (root : TREE_NODE) (f : Nat) (st : GEN_STATE)
    (p : TPath) (S : List TPath) (h : st.stack = p :: S) :
    genLoop env root (f + 1) st = genLoop env root f (genStep env root p S st) := by
  conv =>
    lhs
    unfold genLoop
  rw [h]

theorem genLoop_mono (env : ENV) (root : TREE_NODE) :
    ∀ (f : Nat) (st : GEN_STATE) (r : GEN_STATE), genLoop env root f st = some r →
    ∀ g, genLoop env root (f + g) st = some r := by
  intro f
  induction f with
  | zero =>
    intro st r h g
    unfold genLoop at h
    rcases hst : st.stack with _ | ⟨p, S⟩
    · rw [hst] at h
      rw [genLoop_nil env root _ st hst]
      exact h
    · rw [hst] at h
      exact absurd h (by simp)
  | succ f ih =>
    intro st r h g
    rcases hst : st.stack with _ | ⟨p, S⟩
    · rw [genLoop_nil env root _ st hst] at h ⊢
      exact h
    · rw [genLoop_cons env root f st p S hst] at h
      have := ih _ r h g
      calc genLoop env root (f + 1 + g) st
          = genLoop env root (f + g + 1) st := by ring_nf
        _ = genLoop env root (f + g) (genStep env root p S st) :=
            genLoop_cons env root (f + g) st p S hst
        _ = some r := this

theorem getNode_child (root t c : TREE_NODE) (p : TPath) (b : Bool)
    (h : getNode root p = some t)
    (hc : (if b then t.leaf1 else t.leaf0) = some c) :
    getNode root (p ++ [b]) = some c := by
  induction p generalizing root with
  | nil =>
    injection h with h
    subst h
    show getNode root [b] = some c
    unfold getNode
    try dsimp only
    rw [hc]
    rfl
  | cons b0 p ih =>
    show getNode root (b0 :: (p ++ [b])) = some c
    unfold getNode at h ⊢
    try dsimp only at h ⊢
    rcases hb0 : (if b0 = true then root.leaf1 else root.leaf0) with _ | c0
    · rw [hb0] at h
      exact absurd h (by simp)
    · rw [hb0] at h
      exact ih c0 h

theorem pathUnder_self (p : TPath) : pathUnder p p := ⟨[], by simp⟩

theorem pathUnder_append (p r : TPath) : pathUnder p (p ++ r) := ⟨r, rfl⟩

theorem pathUnder_of_child (p q : TPath) (l : TPath) (h : pathUnder (p ++ l) q) :
    pathUnder p q := by
  obtain ⟨r, rfl⟩ := h
  exact ⟨l ++ r, by simp⟩

theorem not_pathUnder_child (p q : TPath) (l : TPath) (h : ¬ pathUnder p q) :
    ¬ pathUnder (p ++ l) q := fun hh => h (pathUnder_of_child p q l hh)

theorem ne_of_not_pathUnder (p q : TPath) (r : TPath) (h : ¬ pathUnder p q) :
    q ≠ p ++ r := fun hh => h ⟨r, hh⟩

theorem strictUnder_child (p : TPath) (l r : TPath) (hl : l ≠ []) :
    strictUnder p (p ++ l ++ r) := ⟨l ++ r, by simp [hl], by simp⟩

theorem strictUnder_of_strict_child (p l q : TPath) (hl : l ≠ [])
    (h : strictUnder (p ++ l) q) : strictUnder p q := by
  obtain ⟨r, hr, rfl⟩ := h
  exact ⟨l ++ r, by simp [hl], by simp⟩

/-- Disjoint siblings: a path under one child is never under another child
with a different first step. -/
theorem not_pathUnder_sibling (p : TPath) (b1 b2 : Bool) (r1 : TPath) (q : TPath)
    (hne : b1 ≠ b2) (hq : q = p ++ [b1] ++ r1) : ¬ pathUnder (p ++ [b2]) q := by
  rintro ⟨r2, hr2⟩
  have hx : p ++ ([b1] ++ r1) = p ++ ([b2] ++ r2) := by
    rw [← List.append_assoc, ← List.append_assoc, ← hq, hr2]
  have hy : [b1] ++ r1 = [b2] ++ r2 := List.append_cancel_left hx
  exact hne (by injection hy)

theorem setU_same (m : TPath → Option UOP) (p : TPath) (u : Option UOP) :
    setU m p u p = u := by
  unfold setU
  rw [if_pos rfl]

theorem setU_ne (m : TPath → Option UOP) (p : TPath) (u : Option UOP) (q : TPath)
    (h : q ≠ p) : setU m p u q = m q := by
  unfold setU
  rw [if_neg h]

theorem markV_same (vis : TPath → Bool) (p : TPath) : markV vis p p = true := by
  unfold markV
  rw [if_pos rfl]

theorem markV_ne (vis : TPath → Bool) (p : TPath) (q : TPath) (h : q ≠ p) :
    markV vis p q = vis q := by
  unfold markV
  rw [if_neg h]

theorem append_ne (p : TPath) (l1 l2 : TPath) (h : l1 ≠ l2) : p ++ l1 ≠ p ++ l2 :=
  fun hh => h (List.append_cancel_left hh)

theorem genStep_numPlain (env : ENV) (root : TREE_NODE) (p : TPath) (S : List TPath)
    (st : GEN_STATE) (s : String) (vn : Rat) (vi sp : Int)
    (hget : getNode root p = some (.mk TR_NUMBER (some s) vn vi sp none none)) :
    genStep env root p S st =
      { stack := S,
        visited := markV st.visited p,
        uops := setU (setU st.uops p
          (some { m_op := TR_UOP_PUSH_VALUE, m_value := some (.num (strToRat s)) })) p none,
        emitted := st.emitted ++
          [{ m_op := TR_UOP_PUSH_VALUE, m_value := some (.num (strToRat s)) }],
        comp := st.comp, pre := st.pre } := by
  unfold genStep genTail
  rw [hget]
  norm_num [TREE_NODE.op, TREE_NODE.valueStr, TREE_NODE.leaf0, TREE_NODE.leaf1,
    TREE_NODE.valueIdx, TR_NUMBER, TR_OP_FUNC_CALL, TR_STRUCT_REF, TR_STRING,
    TR_IDENTIFIER, TR_UNIT, setU_same]

theorem genStep_numUnit (env : ENV) (root : TREE_NODE) (p : TPath) (S : List TPath)
    (st : GEN_STATE) (s : String) (vn : Rat) (vi sp : Int) (uvs : Option String)
    (uvn : Rat) (uvi usp : Int) (ul0 ul1 : Option TREE_NODE)
    (hget : getNode root p = some (.mk TR_NUMBER (some s) vn vi sp
      (some (.mk TR_UNIT uvs uvn uvi usp ul0 ul1)) none)) :
    genStep env root p S st =
      { stack := S,
        visited := markV (markV st.visited (p ++ [false])) p,
        uops := setU (setU st.uops p
          (some { m_op := TR_UOP_PUSH_VALUE, m_value := some (.num (env.Convert s uvi)) })) p none,
        emitted := st.emitted ++
          [{ m_op := TR_UOP_PUSH_VALUE, m_value := some (.num (env.Convert s uvi)) }],
        comp := st.comp, pre := st.pre } := by
  unfold genStep genTail
  rw [hget]
  norm_num [TREE_NODE.op, TREE_NODE.valueStr, TREE_NODE.leaf0, TREE_NODE.leaf1,
    TREE_NODE.valueIdx, TR_NUMBER, TR_OP_FUNC_CALL, TR_STRUCT_REF, TR_STRING,
    TR_IDENTIFIER, TR_UNIT, setU_same]

theorem genStep_strLit (env : ENV) (root : TREE_NODE) (p : TPath) (S : List TPath)
    (st : GEN_STATE) (s : String) (vn : Rat) (vi sp : Int)
    (hget : getNode root p = some (.mk TR_STRING (some s) vn vi sp none none)) :
    genStep env root p S st =
      { stack := S,
        visited := markV st.visited p,
        uops := setU (setU st.uops p
          (some { m_op := TR_UOP_PUSH_VALUE, m_value := some (.str s) })) p none,
        emitted := st.emitted ++
          [{ m_op := TR_UOP_PUSH_VALUE, m_value := some (.str s) }],
        comp := st.comp, pre := st.pre } := by
  unfold genStep genTail
  rw [hget]
  norm_num [TREE_NODE.op, TREE_NODE.valueStr, TREE_NODE.leaf0, TREE_NODE.leaf1,
    TR_NUMBER, TR_OP_FUNC_CALL, TR_STRUCT_REF, TR_STRING, TR_IDENTIFIER, setU_same]

theorem genStep_ident (env : ENV) (root : TREE_NODE) (p : TPath) (S : List TPath)
    (st : GEN_STATE) (s : String) (vn : Rat) (vi sp : Int) (r : VAR_REF)
    (hget : getNode root p = some (.mk TR_IDENTIFIER (some s) vn vi sp none none))
    (hvr : env.CreateVarRef s "" = some r) :
    genStep env root p S st =
      { stack := S,
        visited := markV st.visited p,
        uops := setU (setU st.uops p
          (some { m_op := TR_UOP_PUSH_VALUE, m_ref := some r })) p none,
        emitted := st.emitted ++ [{ m_op := TR_UOP_PUSH_VALUE, m_ref := some r }],
        comp := st.comp, pre := st.pre } := by
  unfold genStep genTail
  rw [hget]
  norm_num [TREE_NODE.op, TREE_NODE.valueStr, TREE_NODE.leaf0, TREE_NODE.leaf1,
    TR_NUMBER, TR_OP_FUNC_CALL, TR_STRUCT_REF, TR_STRING, TR_IDENTIFIER, hvr, setU_same]

theorem genStep_srefProp (env : ENV) (root : TREE_NODE) (p : TPath) (S : List TPath)
    (st : GEN_STATE) (vs : Option String) (vn : Rat) (vi sp : Int)
    (is0 : String) (ivn : Rat) (ivi isp : Int)
    (ps0 : String) (pvn : Rat) (pvi psp : Int) (r : VAR_REF)
    (hget : getNode root p = some (.mk TR_STRUCT_REF vs vn vi sp
      (some (.mk TR_IDENTIFIER (some is0) ivn ivi isp none none))
      (some (.mk TR_IDENTIFIER (some ps0) pvn pvi psp none none))))
    (hvr : env.CreateVarRef is0 ps0 = some r) :
    genStep env root p S st =
      { stack := S,
        visited := markV (markV (markV st.visited (p ++ [false])) (p ++ [true])) p,
        uops := setU (setU st.uops p
          (some { m_op := TR_UOP_PUSH_VAR, m_ref := some r })) p none,
        emitted := st.emitted ++ [{ m_op := TR_UOP_PUSH_VAR, m_ref := some r }],
        comp :=
          (if r.varType = .VT_PARSE_ERROR then
            st.comp.reportError .CST_CODEGEN ("Unrecognized property " ++ ps0)
              (psp - (ps0.length : Int))
          else st.comp),
        pre := st.pre } := by
  unfold genStep genTail
  rw [hget]
  norm_num [TREE_NODE.op, TREE_NODE.valueStr, TREE_NODE.leaf0, TREE_NODE.leaf1,
    TREE_NODE.srcPos, TR_NUMBER, TR_OP_FUNC_CALL, TR_STRUCT_REF, TR_STRING,
    TR_IDENTIFIER, hvr, setU_same]

theorem genStep_funcCallNode (env : ENV) (root : TREE_NODE) (p : TPath) (S : List TPath)
    (st : GEN_STATE) (vs : Option String) (vn : Rat) (vi sp : Int)
    (l0 l1 : Option TREE_NODE) (u : UOP)
    (hget : getNode root p = some (.mk TR_OP_FUNC_CALL vs vn vi sp l0 l1))
    (hu : st.uops p = some u) :
    genStep env root p S st =
      { stack := S,
        visited := markV st.visited p,
        uops := setU st.uops p none,
        emitted := st.emitted ++ [u],
        comp := st.comp, pre := st.pre } := by
  unfold genStep genTail
  rw [hget]
  norm_num [TREE_NODE.op, TR_OP_FUNC_CALL, hu]

theorem genStep_default_push0 (env : ENV) (root : TREE_NODE) (p : TPath) (S : List TPath)
    (st : GEN_STATE) (op : Nat) (vs : Option String) (vn : Rat) (vi sp : Int)
    (l : TREE_NODE) (l1 : Option TREE_NODE)
    (hget : getNode root p = some (.mk op vs vn vi sp (some l) l1))
    (hne1 : op ≠ TR_OP_FUNC_CALL) (hne2 : op ≠ TR_STRUCT_REF) (hne3 : op ≠ TR_NUMBER)
    (hne4 : op ≠ TR_STRING) (hne5 : op ≠ TR_IDENTIFIER)
    (h0 : st.visited (p ++ [false]) = false) :
    genStep env root p S st =
      { stack := (p ++ [false]) :: p :: S,
        visited := markV st.visited (p ++ [false]),
        uops := setU st.uops p (some { m_op := op }),
        emitted := st.emitted,
        comp := st.comp, pre := st.pre } := by
  unfold genStep genTail
  rw [hget]
  dsimp only [TREE_NODE.op, TREE_NODE.leaf0, TREE_NODE.leaf1]
  rw [if_neg hne1, if_neg hne2, if_neg hne3, if_neg hne4, if_neg hne5]
  rw [h0]
  norm_num

theorem genStep_default_push1 (env : ENV) (root : TREE_NODE) (p : TPath) (S : List TPath)
    (st : GEN_STATE) (op : Nat) (vs : Option String) (vn : Rat) (vi sp : Int)
    (l r : TREE_NODE)
    (hget : getNode root p = some (.mk op vs vn vi sp (some l) (some r)))
    (hne1 : op ≠ TR_OP_FUNC_CALL) (hne2 : op ≠ TR_STRUCT_REF) (hne3 : op ≠ TR_NUMBER)
    (hne4 : op ≠ TR_STRING) (hne5 : op ≠ TR_IDENTIFIER)
    (h0 : st.visited (p ++ [false]) = true)
    (h1 : st.visited (p ++ [true]) = false) :
    genStep env root p S st =
      { stack := (p ++ [true]) :: p :: S,
        visited := markV st.visited (p ++ [true]),
        uops := setU st.uops p (some { m_op := op }),
        emitted := st.emitted,
        comp := st.comp, pre := st.pre } := by
  unfold genStep genTail
  rw [hget]
  dsimp only [TREE_NODE.op, TREE_NODE.leaf0, TREE_NODE.leaf1]
  rw [if_neg hne1, if_neg hne2, if_neg hne3, if_neg hne4, if_neg hne5]
  rw [h0, h1]
  norm_num

theorem genStep_binop_emit (env : ENV) (root : TREE_NODE) (p : TPath) (S : List TPath)
    (st : GEN_STATE) (op : Nat) (vs : Option String) (vn : Rat) (vi sp : Int)
    (l r : TREE_NODE)
    (hget : getNode root p = some (.mk op vs vn vi sp (some l) (some r)))
    (hne1 : op ≠ TR_OP_FUNC_CALL) (hne2 : op ≠ TR_STRUCT_REF) (hne3 : op ≠ TR_NUMBER)
    (hne4 : op ≠ TR_STRING) (hne5 : op ≠ TR_IDENTIFIER)
    (h0 : st.visited (p ++ [false]) = true)
    (h1 : st.visited (p ++ [true]) = true) :
    genStep env root p S st =
      { stack := S,
        visited := markV st.visited p,
        uops := setU (setU st.uops p (some { m_op := op })) p none,
        emitted := st.emitted ++ [{ m_op := op }],
        comp := st.comp, pre := st.pre } := by
  unfold genStep genTail
  rw [hget]
  dsimp only [TREE_NODE.op, TREE_NODE.leaf0, TREE_NODE.leaf1]
  rw [if_neg hne1, if_neg hne2, if_neg hne3, if_neg hne4, if_neg hne5]
  rw [h0, h1]
  norm_num [setU_same]

theorem genStep_not_emit (env : ENV) (root : TREE_NODE) (p : TPath) (S : List TPath)
    (st : GEN_STATE) (op : Nat) (vs : Option String) (vn : Rat) (vi sp : Int)
    (l : TREE_NODE)
    (hget : getNode root p = some (.mk op vs vn vi sp (some l) none))
    (hne1 : op ≠ TR_OP_FUNC_CALL) (hne2 : op ≠ TR_STRUCT_REF) (hne3 : op ≠ TR_NUMBER)
    (hne4 : op ≠ TR_STRING) (hne5 : op ≠ TR_IDENTIFIER)
    (h0 : st.visited (p ++ [false]) = true) :
    genStep env root p S st =
      { stack := S,
        visited := markV st.visited p,
        uops := setU (setU st.uops p (some { m_op := op })) p none,
        emitted := st.emitted ++ [{ m_op := op }],
        comp := st.comp, pre := st.pre } := by
  unfold genStep genTail
  rw [hget]
  dsimp only [TREE_NODE.op, TREE_NODE.leaf0, TREE_NODE.leaf1]
  rw [if_neg hne1, if_neg hne2, if_neg hne3, if_neg hne4, if_neg hne5]
  rw [h0]
  norm_num [setU_same]

theorem TREE_NODE.op_mk (op : Nat) (vs : Option String) (vn : Rat) (vi sp : Int)
    (l0 l1 : Option TREE_NODE) : (TREE_NODE.mk op vs vn vi sp l0 l1).op = op := rfl

theorem TREE_NODE.valueStr_mk (op : Nat) (vs : Option String) (vn : Rat) (vi sp : Int)
    (l0 l1 : Option TREE_NODE) : (TREE_NODE.mk op vs vn vi sp l0 l1).valueStr = vs := rfl

theorem TREE_NODE.valueIdx_mk (op : Nat) (vs : Option String) (vn : Rat) (vi sp : Int)
    (l0 l1 : Option TREE_NODE) : (TREE_NODE.mk op vs vn vi sp l0 l1).valueIdx = vi := rfl

theorem TREE_NODE.srcPos_mk (op : Nat) (vs : Option String) (vn : Rat) (vi sp : Int)
    (l0 l1 : Option TREE_NODE) : (TREE_NODE.mk op vs vn vi sp l0 l1).srcPos = sp := rfl

theorem TREE_NODE.leaf0_mk (op : Nat) (vs : Option String) (vn : Rat) (vi sp : Int)
    (l0 l1 : Option TREE_NODE) : (TREE_NODE.mk op vs vn vi sp l0 l1).leaf0 = l0 := rfl

theorem TREE_NODE.leaf1_mk (op : Nat) (vs : Option String) (vn : Rat) (vi sp : Int)
    (l0 l1 : Option TREE_NODE) : (TREE_NODE.mk op vs vn vi sp l0 l1).leaf1 = l1 := rfl

theorem genStep_srefFunc (env : ENV) (root : TREE_NODE) (p : TPath) (S : List TPath)
    (st : GEN_STATE) (vs : Option String) (vn : Rat) (vi sp : Int)
    (is0 : String) (ivn : Rat) (ivi isp : Int)
    (fvs : Option String) (fvn : Rat) (fvi fsp : Int)
    (fn param : TREE_NODE) (r : VAR_REF) (f : FUNC_CALL_REF)
    (hget : getNode root p = some (.mk TR_STRUCT_REF vs vn vi sp
      (some (.mk TR_IDENTIFIER (some is0) ivn ivi isp none none))
      (some (.mk TR_OP_FUNC_CALL fvs fvn fvi fsp (some fn) (some param)))))
    (hvr : env.CreateVarRef is0 "" = some r)
    (hfc : env.CreateFuncCall (fn.valueStr.getD "") = some f) :
    genStep env root p S st =
      { stack := (p ++ [true, true]) :: (p ++ [true]) :: S,
        visited := markV (markV (markV (markV st.visited (p ++ [false])) (p ++ [true]))
          (p ++ [true, false])) (p ++ [true, true]),
        uops := setU st.uops (p ++ [true])
          (some { m_op := TR_OP_METHOD_CALL, m_func := some f, m_ref := some r }),
        emitted := st.emitted,
        comp :=
          (if ((f (st.pre.Push (some (VALUE.str (vs.getD "")))) (some r)).Pop.2).IsErrorPending = true
           then st.comp
           else st.comp.reportError .CST_CODEGEN
             ((f (st.pre.Push (some (VALUE.str (vs.getD "")))) (some r)).Pop.2).GetError.message
             ((param.srcPos - ((vs.getD "").length : Int)) - 1)),
        pre := (f (st.pre.Push (some (VALUE.str (vs.getD "")))) (some r)).Pop.2 } := by
  unfold genStep genTail
  rw [hget]
  have e0 : markV (markV (markV (markV st.visited (p ++ [false])) (p ++ [true]))
      (p ++ [true, false])) (p ++ [true, true]) (p ++ [false]) = true := by
    rw [markV_ne _ _ _ (append_ne p [false] [true, true] (by decide)),
        markV_ne _ _ _ (append_ne p [false] [true, false] (by decide)),
        markV_ne _ _ _ (append_ne p [false] [true] (by decide)),
        markV_same]
  have e1 : markV (markV (markV (markV st.visited (p ++ [false])) (p ++ [true]))
      (p ++ [true, false])) (p ++ [true, true]) (p ++ [true]) = true := by
    rw [markV_ne _ _ _ (append_ne p [true] [true, true] (by decide)),
        markV_ne _ _ _ (append_ne p [true] [true, false] (by decide)),
        markV_same]
  norm_num [TREE_NODE.op_mk, TREE_NODE.valueStr_mk, TREE_NODE.leaf0_mk,
    TREE_NODE.leaf1_mk, TREE_NODE.srcPos_mk, TR_NUMBER, TR_OP_FUNC_CALL,
    TR_STRUCT_REF, TR_STRING, TR_IDENTIFIER, hvr, hfc, e0, e1]
  constructor <;> split <;> rfl

theorem binaryOps_facts : ∀ op ∈ binaryOps,
    (op ≠ TR_OP_FUNC_CALL ∧ op ≠ TR_STRUCT_REF ∧ op ≠ TR_NUMBER ∧
     op ≠ TR_STRING ∧ op ≠ TR_IDENTIFIER) ∧
    (op ≠ TR_UOP_PUSH_VAR ∧ op ≠ TR_UOP_PUSH_VALUE ∧ op ≠ TR_OP_METHOD_CALL ∧
     op &&& TR_OP_BINARY_MASK ≠ 0) := by
  decide

theorem notOp_facts :
    (TR_OP_BOOL_NOT ≠ TR_OP_FUNC_CALL ∧ TR_OP_BOOL_NOT ≠ TR_STRUCT_REF ∧
     TR_OP_BOOL_NOT ≠ TR_NUMBER ∧ TR_OP_BOOL_NOT ≠ TR_STRING ∧
     TR_OP_BOOL_NOT ≠ TR_IDENTIFIER) := by
  decide

theorem exec_pushValue (u : UOP) (h : u.m_op = TR_UOP_PUSH_VALUE) (ctx : CONTEXT) :
    u.Exec ctx = ctx.Push u.m_value := by
  unfold UOP.Exec
  rw [h]
  rfl

theorem exec_pushVar_some (u : UOP) (r : VAR_REF) (h : u.m_op = TR_UOP_PUSH_VAR)
    (hr : u.m_ref = some r) (ctx : CONTEXT) :
    u.Exec ctx = ctx.Push (some (r.GetValue ctx)) := by
  unfold UOP.Exec
  rw [h, if_pos rfl, hr]

theorem exec_methodCall (u : UOP) (f : FUNC_CALL_REF) (h : u.m_op = TR_OP_METHOD_CALL)
    (hf : u.m_func = some f) (ctx : CONTEXT) :
    u.Exec ctx = f ctx u.m_ref := by
  unfold UOP.Exec
  rw [h, hf]
  rfl

theorem exec_boolNot (ctx : CONTEXT) :
    UOP.Exec { m_op := TR_OP_BOOL_NOT } ctx = ctx := rfl

theorem exec_binop_stack (op : Nat) (hop : op ∈ binaryOps) (ctx : CONTEXT)
    (v w : Option VALUE) (s : List (Option VALUE)) (hstack : ctx.stack = w :: v :: s) :
    ∃ z : Rat, (UOP.Exec { m_op := op } ctx).stack = some (VALUE.num z) :: s := by
  obtain ⟨-, h1, h2, h3, h4⟩ := binaryOps_facts op hop
  unfold UOP.Exec
  dsimp only
  rw [if_neg h1, if_neg h2, if_neg h3, if_pos h4]
  rcases ctx with ⟨stk, err, tr⟩
  simp only at hstack
  subst hstack
  exact ⟨_, rfl⟩

theorem not_pathUnder_ne_self (p q : TPath) (h : ¬ pathUnder p q) : q ≠ p :=
  fun hh => h ⟨[], by simp [hh]⟩

theorem strictUnder_ne (p q : TPath) (h : strictUnder p q) : q ≠ p := by
  rintro rfl
  obtain ⟨rr, hrr, hq⟩ := h
  have hlen := congrArg List.length hq
  simp at hlen
  exact hrr hlen

theorem not_pathUnder_extend (x l : TPath) (hl : l ≠ []) : ¬ pathUnder (x ++ l) x := by
  rintro ⟨rr, hrr⟩
  have hlen := congrArg List.length hrr
  simp at hlen
  obtain ⟨h1, -⟩ := hlen
  exact hl h1

theorem markV_mono (vis : TPath → Bool) (p q : TPath) (h : vis q = true) :
    markV vis p q = true := by
  unfold markV
  split
  · rfl
  · exact h

theorem execList_nil (ctx : CONTEXT) : execList [] ctx = ctx := rfl

theorem execList_cons (u : UOP) (B : List UOP) (ctx : CONTEXT) :
    execList (u :: B) ctx = execList B (u.Exec ctx) := rfl

theorem pushOne_single (u : UOP)
    (h : ∀ ctx : CONTEXT, ∃ v, (u.Exec ctx).stack = v :: ctx.stack) : pushOne [u] := by
  intro ctx
  obtain ⟨v, hv⟩ := h ctx
  exact ⟨v, by rw [execList_cons, execList_nil]; exact hv⟩

/-! ### C2: stack balance of generated programs -/

set_option maxHeartbeats 1000000

theorem gen_subtree (env : ENV) (root : TREE_NODE)
    (hres : resolverTotal env) (hfun : funcsOk env) :
    ∀ (t : TREE_NODE), ParserShaped t →
    ∀ (p : TPath) (st : GEN_STATE) (S : List TPath),
      getNode root p = some t →
      st.stack = p :: S →
      (∀ q, strictUnder p q → st.visited q = false) →
      ∃ (k : Nat) (B : List UOP) (stOut : GEN_STATE),
        (∀ f, genLoop env root (k + f) st = genLoop env root f stOut) ∧
        stOut.stack = S ∧
        stOut.emitted = st.emitted ++ B ∧
        pushOne B ∧
        (∀ q, ¬ pathUnder p q → stOut.visited q = st.visited q) ∧
        (∀ q, st.visited q = true → stOut.visited q = true) ∧
        (∀ q, ¬ pathUnder p q → stOut.uops q = st.uops q) := by
  intro t hshape
  induction hshape with
  | numPlain s vn vi sp =>
    intro p st S hget hstack hfresh
    have hstep := genStep_numPlain env root p S st s vn vi sp hget
    refine ⟨1, [{ m_op := TR_UOP_PUSH_VALUE, m_value := some (.num (strToRat s)) }],
      genStep env root p S st, ?_, ?_, ?_, ?_, ?_, ?_, ?_⟩
    · intro f
      rw [Nat.add_comm 1 f]
      exact genLoop_cons env root f st p S hstack
    · rw [hstep]
    · rw [hstep]
    · exact pushOne_single _ (fun ctx => ⟨_, by rw [exec_pushValue _ rfl]; rfl⟩)
    · intro q hq
      rw [hstep]
      exact markV_ne _ _ _ (not_pathUnder_ne_self p q hq)
    · intro q hq
      rw [hstep]
      exact markV_mono _ _ _ hq
    · intro q hq
      rw [hstep]
      dsimp only
      rw [setU_ne _ _ _ _ (not_pathUnder_ne_self p q hq),
          setU_ne _ _ _ _ (not_pathUnder_ne_self p q hq)]
  | numUnit s vn vi sp uvs uvn uvi usp ul0 ul1 =>
    intro p st S hget hstack hfresh
    have hstep := genStep_numUnit env root p S st s vn vi sp uvs uvn uvi usp ul0 ul1 hget
    refine ⟨1, [{ m_op := TR_UOP_PUSH_VALUE, m_value := some (.num (env.Convert s uvi)) }],
      genStep env root p S st, ?_, ?_, ?_, ?_, ?_, ?_, ?_⟩
    · intro f
      rw [Nat.add_comm 1 f]
      exact genLoop_cons env root f st p S hstack
    · rw [hstep]
    · rw [hstep]
    · exact pushOne_single _ (fun ctx => ⟨_, by rw [exec_pushValue _ rfl]; rfl⟩)
    · intro q hq
      rw [hstep]
      dsimp only
      rw [markV_ne _ _ _ (not_pathUnder_ne_self p q hq),
          markV_ne _ _ _ (ne_of_not_pathUnder p q [false] hq)]
    · intro q hq
      rw [hstep]
      exact markV_mono _ _ _ (markV_mono _ _ _ hq)
    · intro q hq
      rw [hstep]
      dsimp only
      rw [setU_ne _ _ _ _ (not_pathUnder_ne_self p q hq),
          setU_ne _ _ _ _ (not_pathUnder_ne_self p q hq)]
  | strLit s vn vi sp =>
    intro p st S hget hstack hfresh
    have hstep := genStep_strLit env root p S st s vn vi sp hget
    refine ⟨1, [{ m_op := TR_UOP_PUSH_VALUE, m_value := some (.str s) }],
      genStep env root p S st, ?_, ?_, ?_, ?_, ?_, ?_, ?_⟩
    · intro f
      rw [Nat.add_comm 1 f]
      exact genLoop_cons env root f st p S hstack
    · rw [hstep]
    · rw [hstep]
    · exact pushOne_single _ (fun ctx => ⟨_, by rw [exec_pushValue _ rfl]; rfl⟩)
    · intro q hq
      rw [hstep]
      exact markV_ne _ _ _ (not_pathUnder_ne_self p q hq)
    · intro q hq
      rw [hstep]
      exact markV_mono _ _ _ hq
    · intro q hq
      rw [hstep]
      dsimp only
      rw [setU_ne _ _ _ _ (not_pathUnder_ne_self p q hq),
          setU_ne _ _ _ _ (not_pathUnder_ne_self p q hq)]
  | ident s vn vi sp =>
    intro p st S hget hstack hfresh
    obtain ⟨r, hvr⟩ := Option.isSome_iff_exists.mp (hres.1 s "")
    have hstep := genStep_ident env root p S st s vn vi sp r hget hvr
    refine ⟨1, [{ m_op := TR_UOP_PUSH_VALUE, m_ref := some r }],
      genStep env root p S st, ?_, ?_, ?_, ?_, ?_, ?_, ?_⟩
    · intro f
      rw [Nat.add_comm 1 f]
      exact genLoop_cons env root f st p S hstack
    · rw [hstep]
    · rw [hstep]
    · exact pushOne_single _ (fun ctx => ⟨_, by rw [exec_pushValue _ rfl]; rfl⟩)
    · intro q hq
      rw [hstep]
      exact markV_ne _ _ _ (not_pathUnder_ne_self p q hq)
    · intro q hq
      rw [hstep]
      exact markV_mono _ _ _ hq
    · intro q hq
      rw [hstep]
      dsimp only
      rw [setU_ne _ _ _ _ (not_pathUnder_ne_self p q hq),
          setU_ne _ _ _ _ (not_pathUnder_ne_self p q hq)]
  | srefProp vs vn vi sp is0 ivn ivi isp ps0 pvn pvi psp =>
    intro p st S hget hstack hfresh
    obtain ⟨r, hvr⟩ := Option.isSome_iff_exists.mp (hres.1 is0 ps0)
    have hstep := genStep_srefProp env root p S st vs vn vi sp is0 ivn ivi isp
      ps0 pvn pvi psp r hget hvr
    refine ⟨1, [{ m_op := TR_UOP_PUSH_VAR, m_ref := some r }],
      genStep env root p S st, ?_, ?_, ?_, ?_, ?_, ?_, ?_⟩
    · intro f
      rw [Nat.add_comm 1 f]
      exact genLoop_cons env root f st p S hstack
    · rw [hstep]
    · rw [hstep]
    · refine pushOne_single _ (fun ctx => ⟨some (r.GetValue ctx), ?_⟩)
      rw [exec_pushVar_some _ r rfl rfl]
      rfl
    · intro q hq
      rw [hstep]
      dsimp only
      rw [markV_ne _ _ _ (not_pathUnder_ne_self p q hq),
          markV_ne _ _ _ (ne_of_not_pathUnder p q [true] hq),
          markV_ne _ _ _ (ne_of_not_pathUnder p q [false] hq)]
    · intro q hq
      rw [hstep]
      exact markV_mono _ _ _ (markV_mono _ _ _ (markV_mono _ _ _ hq))
    · intro q hq
      rw [hstep]
      dsimp only
      rw [setU_ne _ _ _ _ (not_pathUnder_ne_self p q hq),
          setU_ne _ _ _ _ (not_pathUnder_ne_self p q hq)]
  | srefFunc vs vn vi sp is0 ivn ivi isp fvn fvi fsp fvs nop nvs nvn nvi nsp nl0 nl1 param hparam ihparam =>
    intro p st S hget hstack hfresh
    obtain ⟨r, hvr⟩ := Option.isSome_iff_exists.mp (hres.1 is0 "")
    obtain ⟨f, hfc⟩ := Option.isSome_iff_exists.mp (hres.2 (nvs.getD ""))
    have hstep1 := genStep_srefFunc env root p S st vs vn vi sp is0 ivn ivi isp
      fvs fvn fvi fsp (.mk nop nvs nvn nvi nsp nl0 nl1) param r f hget hvr hfc
    have hgf : getNode root (p ++ [true]) = some (.mk TR_OP_FUNC_CALL fvs fvn fvi fsp
        (some (.mk nop nvs nvn nvi nsp nl0 nl1)) (some param)) :=
      getNode_child root _ _ p true hget (by rfl)
    have hgp0 : getNode root ((p ++ [true]) ++ [true]) = some param :=
      getNode_child root _ param (p ++ [true]) true hgf (by rfl)
    have hgp : getNode root (p ++ [true, true]) = some param := by
      rw [show p ++ [true, true] = (p ++ [true]) ++ [true] from by simp]
      exact hgp0
    obtain ⟨k2, B2, st3, hsteps2, hstk3, hemit3, hpush2, hframe3, hmono3, huf3⟩ :=
      ihparam (p ++ [true, true])
        { stack := (p ++ [true, true]) :: (p ++ [true]) :: S,
          visited := markV (markV (markV (markV st.visited (p ++ [false])) (p ++ [true]))
            (p ++ [true, false])) (p ++ [true, true]),
          uops := setU st.uops (p ++ [true])
            (some { m_op := TR_OP_METHOD_CALL, m_func := some f, m_ref := some r }),
          emitted := st.emitted,
          comp := (if ((f (st.pre.Push (some (VALUE.str (vs.getD "")))) (some r)).Pop.2).IsErrorPending = true then st.comp else st.comp.reportError .CST_CODEGEN ((f (st.pre.Push (some (VALUE.str (vs.getD "")))) (some r)).Pop.2).GetError.message ((param.srcPos - ((vs.getD "").length : Int)) - 1)),
          pre := (f (st.pre.Push (some (VALUE.str (vs.getD "")))) (some r)).Pop.2 }
        ((p ++ [true]) :: S) hgp rfl
        (fun q hq => by
          obtain ⟨rr, hrr, hq2⟩ := hq
          have hlr : 0 < rr.length := List.length_pos.mpr hrr
          have hq3 : q = p ++ ([true, true] ++ rr) := by rw [hq2, List.append_assoc]
          have hne4 : ∀ X : TPath, X.length ≤ 2 → p ++ ([true, true] ++ rr) ≠ p ++ X := by
            intro X hX
            refine append_ne p _ _ (fun hh => ?_)
            have hlen := congrArg List.length hh
            simp at hlen
            omega
          dsimp only
          rw [hq3,
              markV_ne _ _ _ (hne4 [true, true] (by decide)),
              markV_ne _ _ _ (hne4 [true, false] (by decide)),
              markV_ne _ _ _ (hne4 [true] (by decide)),
              markV_ne _ _ _ (hne4 [false] (by decide))]
          exact hfresh _ ⟨[true, true] ++ rr, by simp, rfl⟩)
    have hnp : ¬ pathUnder (p ++ [true, true]) (p ++ [true]) := by
      have h2 := not_pathUnder_extend (p ++ [true]) [true] (by decide)
      rwa [List.append_assoc] at h2
    have hu : st3.uops (p ++ [true]) =
        some { m_op := TR_OP_METHOD_CALL, m_func := some f, m_ref := some r } := by
      rw [huf3 _ hnp]
      show setU st.uops (p ++ [true])
        (some { m_op := TR_OP_METHOD_CALL, m_func := some f, m_ref := some r })
        (p ++ [true]) = _
      rw [setU_same]
    have hstep3 := genStep_funcCallNode env root (p ++ [true]) S st3 fvs fvn fvi fsp
      (some (.mk nop nvs nvn nvi nsp nl0 nl1)) (some param)
      { m_op := TR_OP_METHOD_CALL, m_func := some f, m_ref := some r } hgf hu
    refine ⟨1 + k2 + 1,
      B2 ++ [{ m_op := TR_OP_METHOD_CALL, m_func := some f, m_ref := some r }],
      genStep env root (p ++ [true]) S st3, ?_, ?_, ?_, ?_, ?_, ?_, ?_⟩
    · intro g
      rw [show 1 + k2 + 1 + g = (k2 + (1 + g)) + 1 from by omega,
        genLoop_cons env root _ st p S hstack, hstep1, hsteps2 (1 + g),
        show 1 + g = g + 1 from by omega,
        genLoop_cons env root _ st3 (p ++ [true]) S hstk3]
    · rw [hstep3]
    · rw [hstep3]
      dsimp only
      rw [hemit3]
      dsimp only
      simp [List.append_assoc]
    · intro ctx
      obtain ⟨v1, hv1⟩ := hpush2 ctx
      obtain ⟨w, hw⟩ := hfun _ f hfc (execList B2 ctx) (some r) v1 ctx.stack hv1
      refine ⟨w, ?_⟩
      rw [execList_append, execList_cons, execList_nil,
        exec_methodCall { m_op := TR_OP_METHOD_CALL, m_func := some f, m_ref := some r }
          f rfl rfl]
      exact hw
    · intro q hq
      have hq2 : ¬ pathUnder (p ++ [true, true]) q := not_pathUnder_child p q [true, true] hq
      rw [hstep3]
      dsimp only
      rw [markV_ne _ _ _ (ne_of_not_pathUnder p q [true] hq), hframe3 _ hq2]
      show markV (markV (markV (markV st.visited (p ++ [false])) (p ++ [true]))
        (p ++ [true, false])) (p ++ [true, true]) q = st.visited q
      rw [markV_ne _ _ _ (ne_of_not_pathUnder p q [true, true] hq),
          markV_ne _ _ _ (ne_of_not_pathUnder p q [true, false] hq),
          markV_ne _ _ _ (ne_of_not_pathUnder p q [true] hq),
          markV_ne _ _ _ (ne_of_not_pathUnder p q [false] hq)]
    · intro q hq
      rw [hstep3]
      dsimp only
      exact markV_mono _ _ _ (hmono3 _ (markV_mono _ _ _ (markV_mono _ _ _
        (markV_mono _ _ _ (markV_mono _ _ _ hq)))))
    · intro q hq
      have hq2 : ¬ pathUnder (p ++ [true, true]) q := not_pathUnder_child p q [true, true] hq
      rw [hstep3]
      dsimp only
      rw [setU_ne _ _ _ _ (ne_of_not_pathUnder p q [true] hq), huf3 _ hq2]
      show setU st.uops (p ++ [true])
        (some { m_op := TR_OP_METHOD_CALL, m_func := some f, m_ref := some r }) q = st.uops q
      rw [setU_ne _ _ _ _ (ne_of_not_pathUnder p q [true] hq)]
  | binop op hop vs vn vi sp l r hl hr ihl ihr =>
    intro p st S hget hstack hfresh
    obtain ⟨⟨hne1, hne2, hne3, hne4, hne5⟩, -⟩ := binaryOps_facts op hop
    have hgl : getNode root (p ++ [false]) = some l :=
      getNode_child root _ l p false hget (by rfl)
    have hgr : getNode root (p ++ [true]) = some r :=
      getNode_child root _ r p true hget (by rfl)
    have h0 : st.visited (p ++ [false]) = false := hfresh _ ⟨[false], by decide, rfl⟩
    have hstep1 := genStep_default_push0 env root p S st op vs vn vi sp l (some r)
      hget hne1 hne2 hne3 hne4 hne5 h0
    obtain ⟨k1, B1, st2, hsteps1, hstk2, hemit2, hpush1, hframe2, hmono2, huf2⟩ :=
      ihl (p ++ [false])
        { stack := (p ++ [false]) :: p :: S,
          visited := markV st.visited (p ++ [false]),
          uops := setU st.uops p (some { m_op := op }),
          emitted := st.emitted, comp := st.comp, pre := st.pre }
        (p :: S) hgl rfl
        (fun q hq => by
          dsimp only
          rw [markV_ne _ _ _ (strictUnder_ne _ q hq)]
          exact hfresh q (strictUnder_of_strict_child p [false] q (by decide) hq))
    have h0v : st2.visited (p ++ [false]) = true :=
      hmono2 _ (markV_same st.visited (p ++ [false]))
    have h1v : st2.visited (p ++ [true]) = false := by
      have hnot : ¬ pathUnder (p ++ [false]) (p ++ [true]) :=
        not_pathUnder_sibling p true false [] (p ++ [true]) (by decide) (by simp)
      rw [hframe2 _ hnot]
      show markV st.visited (p ++ [false]) (p ++ [true]) = false
      rw [markV_ne _ _ _ (append_ne p [true] [false] (by decide))]
      exact hfresh _ ⟨[true], by decide, rfl⟩
    have hstep2 := genStep_default_push1 env root p S st2 op vs vn vi sp l r
      hget hne1 hne2 hne3 hne4 hne5 h0v h1v
    obtain ⟨k2, B2, st4, hsteps2, hstk4, hemit4, hpush2, hframe4, hmono4, huf4⟩ :=
      ihr (p ++ [true])
        { stack := (p ++ [true]) :: p :: S,
          visited := markV st2.visited (p ++ [true]),
          uops := setU st2.uops p (some { m_op := op }),
          emitted := st2.emitted, comp := st2.comp, pre := st2.pre }
        (p :: S) hgr rfl
        (fun q hq => by
          dsimp only
          rw [markV_ne _ _ _ (strictUnder_ne _ q hq)]
          have hnot0 : ¬ pathUnder (p ++ [false]) q := by
            obtain ⟨rr, hrr, hq2⟩ := hq
            exact not_pathUnder_sibling p true false rr q (by decide)
              (by simp [hq2])
          rw [hframe2 _ hnot0]
          show markV st.visited (p ++ [false]) q = false
          rw [markV_ne _ _ _ (not_pathUnder_ne_self _ _ hnot0)]
          exact hfresh q (strictUnder_of_strict_child p [true] q (by decide) hq))
    have h0w : st4.visited (p ++ [false]) = true := by
      refine hmono4 _ ?_
      show markV st2.visited (p ++ [true]) (p ++ [false]) = true
      rw [markV_ne _ _ _ (append_ne p [false] [true] (by decide))]
      exact h0v
    have h1w : st4.visited (p ++ [true]) = true :=
      hmono4 _ (markV_same st2.visited (p ++ [true]))
    have hstep3 := genStep_binop_emit env root p S st4 op vs vn vi sp l r
      hget hne1 hne2 hne3 hne4 hne5 h0w h1w
    refine ⟨1 + k1 + 1 + k2 + 1, B1 ++ B2 ++ [{ m_op := op }],
      genStep env root p S st4, ?_, ?_, ?_, ?_, ?_, ?_, ?_⟩
    · intro f
      rw [show 1 + k1 + 1 + k2 + 1 + f = (k1 + (1 + (k2 + (1 + f)))) + 1 from by omega,
        genLoop_cons env root _ st p S hstack, hstep1, hsteps1 (1 + (k2 + (1 + f))),
        show 1 + (k2 + (1 + f)) = (k2 + (1 + f)) + 1 from by omega,
        genLoop_cons env root _ st2 p S hstk2, hstep2, hsteps2 (1 + f),
        show 1 + f = f + 1 from by omega,
        genLoop_cons env root _ st4 p S hstk4]
    · rw [hstep3]
    · rw [hstep3]
      dsimp only
      rw [hemit4]
      dsimp only
      rw [hemit2]
      dsimp only
      simp [List.append_assoc]
    · intro ctx
      obtain ⟨v1, hv1⟩ := hpush1 ctx
      obtain ⟨v2, hv2⟩ := hpush2 (execList B1 ctx)
      rw [hv1] at hv2
      obtain ⟨z, hz⟩ := exec_binop_stack op hop (execList B2 (execList B1 ctx))
        v1 v2 ctx.stack hv2
      refine ⟨some (VALUE.num z), ?_⟩
      rw [execList_append, execList_append, execList_cons, execList_nil]
      exact hz
    · intro q hq
      have hq0 : ¬ pathUnder (p ++ [false]) q := not_pathUnder_child p q [false] hq
      have hq1 : ¬ pathUnder (p ++ [true]) q := not_pathUnder_child p q [true] hq
      rw [hstep3]
      dsimp only
      rw [markV_ne _ _ _ (not_pathUnder_ne_self p q hq), hframe4 _ hq1]
      show markV st2.visited (p ++ [true]) q = st.visited q
      rw [markV_ne _ _ _ (not_pathUnder_ne_self _ _ hq1), hframe2 _ hq0]
      show markV st.visited (p ++ [false]) q = st.visited q
      rw [markV_ne _ _ _ (not_pathUnder_ne_self _ _ hq0)]
    · intro q hq
      rw [hstep3]
      dsimp only
      exact markV_mono _ _ _ (hmono4 _ (markV_mono _ _ _ (hmono2 _ (markV_mono _ _ _ hq))))
    · intro q hq
      have hq0 : ¬ pathUnder (p ++ [false]) q := not_pathUnder_child p q [false] hq
      have hq1 : ¬ pathUnder (p ++ [true]) q := not_pathUnder_child p q [true] hq
      rw [hstep3]
      dsimp only
      rw [setU_ne _ _ _ _ (not_pathUnder_ne_self p q hq),
          setU_ne _ _ _ _ (not_pathUnder_ne_self p q hq), huf4 _ hq1]
      show setU st2.uops p (some { m_op := op }) q = st.uops q
      rw [setU_ne _ _ _ _ (not_pathUnder_ne_self p q hq), huf2 _ hq0]
      show setU st.uops p (some { m_op := op }) q = st.uops q
      rw [setU_ne _ _ _ _ (not_pathUnder_ne_self p q hq)]
  | notop vs vn vi sp l hl ihl =>
    intro p st S hget hstack hfresh
    obtain ⟨hne1, hne2, hne3, hne4, hne5⟩ := notOp_facts
    have hgl : getNode root (p ++ [false]) = some l :=
      getNode_child root _ l p false hget (by rfl)
    have h0 : st.visited (p ++ [false]) = false := hfresh _ ⟨[false], by decide, rfl⟩
    have hstep1 := genStep_default_push0 env root p S st TR_OP_BOOL_NOT vs vn vi sp l none
      hget hne1 hne2 hne3 hne4 hne5 h0
    obtain ⟨k1, B1, st2, hsteps1, hstk2, hemit2, hpush1, hframe2, hmono2, huf2⟩ :=
      ihl (p ++ [false])
        { stack := (p ++ [false]) :: p :: S,
          visited := markV st.visited (p ++ [false]),
          uops := setU st.uops p (some { m_op := TR_OP_BOOL_NOT }),
          emitted := st.emitted, comp := st.comp, pre := st.pre }
        (p :: S) hgl rfl
        (fun q hq => by
          dsimp only
          rw [markV_ne _ _ _ (strictUnder_ne _ q hq)]
          exact hfresh q (strictUnder_of_strict_child p [false] q (by decide) hq))
    have h0v : st2.visited (p ++ [false]) = true :=
      hmono2 _ (markV_same st.visited (p ++ [false]))
    have hstep2 := genStep_not_emit env root p S st2 TR_OP_BOOL_NOT vs vn vi sp l
      hget hne1 hne2 hne3 hne4 hne5 h0v
    refine ⟨1 + k1 + 1, B1 ++ [{ m_op := TR_OP_BOOL_NOT }],
      genStep env root p S st2, ?_, ?_, ?_, ?_, ?_, ?_, ?_⟩
    · intro f
      rw [show 1 + k1 + 1 + f = (k1 + (1 + f)) + 1 from by omega,
        genLoop_cons env root _ st p S hstack, hstep1, hsteps1 (1 + f),
        show 1 + f = f + 1 from by omega,
        genLoop_cons env root _ st2 p S hstk2]
    · rw [hstep2]
    · rw [hstep2]
      dsimp only
      rw [hemit2]
      dsimp only
      simp [List.append_assoc]
    · intro ctx
      obtain ⟨v1, hv1⟩ := hpush1 ctx
      refine ⟨v1, ?_⟩
      rw [execList_append, execList_cons, execList_nil, exec_boolNot]
      exact hv1
    · intro q hq
      have hq0 : ¬ pathUnder (p ++ [false]) q := not_pathUnder_child p q [false] hq
      rw [hstep2]
      dsimp only
      rw [markV_ne _ _ _ (not_pathUnder_ne_self p q hq), hframe2 _ hq0]
      show markV st.visited (p ++ [false]) q = st.visited q
      rw [markV_ne _ _ _ (not_pathUnder_ne_self _ _ hq0)]
    · intro q hq
      rw [hstep2]
      dsimp only
      exact markV_mono _ _ _ (hmono2 _ (markV_mono _ _ _ hq))
    · intro q hq
      have hq0 : ¬ pathUnder (p ++ [false]) q := not_pathUnder_child p q [false] hq
      rw [hstep2]
      dsimp only
      rw [setU_ne _ _ _ _ (not_pathUnder_ne_self p q hq),
          setU_ne _ _ _ _ (not_pathUnder_ne_self p q hq), huf2 _ hq0]
      show setU st.uops p (some { m_op := TR_OP_BOOL_NOT }) q = st.uops q
      rw [setU_ne _ _ _ _ (not_pathUnder_ne_self p q hq)]

theorem totalEnv_resolverTotal : resolverTotal totalEnv :=
  ⟨fun _ _ => rfl, fun _ => rfl⟩

theorem totalEnv_funcsOk : funcsOk totalEnv := by
  intro n f hf ctx vr v s hs
  have hf2 : some (fun (ctx : CONTEXT) (_ : Option VAR_REF) =>
      ctx.Pop.2.Push (some (VALUE.num 7))) = some f := hf
  injection hf2 with hf2
  subst hf2
  rcases ctx with ⟨stk, err, tr⟩
  simp only at hs
  subst hs
  exact ⟨some (VALUE.num 7), rfl⟩

theorem prepareTree_mk_head (cop : Nat) (cvs : Option String) (cvn : Rat) (cvi csp : Int)
    (cl0 cl1 : Option TREE_NODE) :
    ∃ a b, prepareTree (.mk cop cvs cvn cvi csp cl0 cl1) = .mk cop cvs cvn cvi csp a b := by
  rcases cl0 with _ | c0 <;> rcases cl1 with _ | c1 <;>
    exact ⟨_, _, by simp only [prepareTree]; exact rfl⟩

theorem prepareTree_shaped : ∀ (t : TREE_NODE), ParserShaped t → ParserShaped (prepareTree t) := by
  intro t h
  induction h with
  | numPlain s vn vi sp => exact ParserShaped.numPlain s vn vi sp
  | numUnit s vn vi sp uvs uvn uvi usp ul0 ul1 =>
    obtain ⟨a, b, hhead⟩ := prepareTree_mk_head TR_UNIT uvs uvn uvi usp ul0 ul1
    have heq : prepareTree (.mk TR_NUMBER (some s) vn vi sp
        (some (.mk TR_UNIT uvs uvn uvi usp ul0 ul1)) none) =
        .mk TR_NUMBER (some s) vn vi sp (some (.mk TR_UNIT uvs uvn uvi usp a b)) none := by
      simp only [prepareTree]
      rw [hhead]
      norm_num [TR_NUMBER, TR_OP_FUNC_CALL]
    rw [heq]
    exact ParserShaped.numUnit s vn vi sp uvs uvn uvi usp a b
  | strLit s vn vi sp => exact ParserShaped.strLit s vn vi sp
  | ident s vn vi sp => exact ParserShaped.ident s vn vi sp
  | srefProp vs vn vi sp is0 ivn ivi isp ps0 pvn pvi psp =>
    exact ParserShaped.srefProp vs vn vi sp is0 ivn ivi isp ps0 pvn pvi psp
  | srefFunc vs vn vi sp is0 ivn ivi isp fvn fvi fsp fvs nop nvs nvn nvi nsp nl0 nl1 param hparam ihparam =>
    obtain ⟨a, b, hhead⟩ := prepareTree_mk_head nop nvs nvn nvi nsp nl0 nl1
    have heq : prepareTree (.mk TR_STRUCT_REF vs vn vi sp
        (some (.mk TR_IDENTIFIER (some is0) ivn ivi isp none none))
        (some (.mk TR_OP_FUNC_CALL fvs fvn fvi fsp
          (some (.mk nop nvs nvn nvi nsp nl0 nl1)) (some param)))) =
        .mk TR_STRUCT_REF vs vn vi sp
          (some (.mk TR_IDENTIFIER (some is0) ivn ivi isp none none))
          (some (.mk TR_OP_FUNC_CALL fvs fvn fvi fsp
            (some (.mk nop nvs nvn nvi nsp none none)) (some (prepareTree param)))) := by
      simp only [prepareTree]
      rw [hhead]
      norm_num [TR_STRUCT_REF, TR_IDENTIFIER, TR_OP_FUNC_CALL]
    rw [heq]
    exact ParserShaped.srefFunc vs vn vi sp is0 ivn ivi isp fvn fvi fsp fvs
      nop nvs nvn nvi nsp none none (prepareTree param) ihparam
  | binop op hop vs vn vi sp l r hl hr ihl ihr =>
    obtain ⟨⟨hne1, -, -, -, -⟩, -⟩ := binaryOps_facts op hop
    unfold prepareTree
    dsimp only
    rw [if_neg hne1]
    exact ParserShaped.binop op hop vs vn vi sp _ _ ihl ihr
  | notop vs vn vi sp l hl ihl =>
    exact ParserShaped.notop vs vn vi sp (prepareTree l) ihl

/-- C2: every bytecode program the code generator produces from a
parser-shaped expression tree whose identifiers, properties and functions
all resolve (a successfully compiled expression) is stack balanced:
started on an empty operand stack, executing all its instructions in order
leaves the stack holding exactly one value immediately before the final
pop, and `UCODE::Run` pops and returns exactly that value. -/
theorem C2_run_stack_balance (env : ENV) (fuel : Nat) (c : COMPILER) (preCtx : CONTEXT)
    (t : TREE_NODE) (hshape : ParserShaped t)
    (hres : resolverTotal env) (hfun : funcsOk env)
    (ht : c.m_tree = some t)
    (ok : Bool) (prog : List UOP) (c2 : COMPILER) (pre2 : CONTEXT)
    (hgen : generateUCode env fuel c preCtx = some (ok, prog, c2, pre2))
    (ctx : CONTEXT) (hctx : ctx.stack = []) :
    ∃ v : Option VALUE,
      (execList prog ctx).stack = [v] ∧ (UCODE.Run prog ctx).1 = v := by
  unfold generateUCode at hgen
  rw [ht] at hgen
  dsimp only at hgen
  obtain ⟨k, B, stOut, hsteps, hstk, hemit, hpush, -, -, -⟩ :=
    gen_subtree env (prepareTree t) hres hfun (prepareTree t) (prepareTree_shaped t hshape)
      [] { stack := [([] : TPath)], visited := fun _ => false, uops := fun _ => none,
           emitted := [], comp := c, pre := preCtx } [] rfl rfl (fun q hq => rfl)
  have hk : genLoop env (prepareTree t) k
      { stack := [([] : TPath)], visited := fun _ => false, uops := fun _ => none,
        emitted := [], comp := c, pre := preCtx } = some stOut := by
    have h0 := hsteps 0
    rw [Nat.add_zero] at h0
    rw [h0]
    exact genLoop_nil env (prepareTree t) 0 stOut hstk
  rcases hloop : genLoop env (prepareTree t) fuel
      { stack := [([] : TPath)], visited := fun _ => false, uops := fun _ => none,
        emitted := [], comp := c, pre := preCtx } with _ | stF
  · rw [hloop] at hgen
    exact absurd hgen (by simp)
  · rw [hloop] at hgen
    have hmono1 := genLoop_mono env (prepareTree t) fuel _ stF hloop k
    have hmono2 := genLoop_mono env (prepareTree t) k _ stOut hk fuel
    rw [Nat.add_comm k fuel] at hmono2
    rw [hmono1] at hmono2
    injection hmono2 with hEq
    simp only [Option.some.injEq, Prod.mk.injEq] at hgen
    obtain ⟨-, hprog, -, -⟩ := hgen
    have hpB : prog = B := by
      rw [← hprog, hEq, hemit]
      rfl
    obtain ⟨v, hv⟩ := hpush ctx
    rw [hctx] at hv
    refine ⟨v, ?_, ?_⟩
    · rw [hpB]
      exact hv
    · unfold UCODE.Run CONTEXT.Pop
      rw [hpB, hv]

theorem C2_run_stack_balance_witness :
    ∃ v : Option VALUE,
      (execList [{ m_op := TR_UOP_PUSH_VALUE, m_value := some (VALUE.num (strToRat "2")) }]
        CONTEXT.empty).stack = [v] ∧
      (UCODE.Run [{ m_op := TR_UOP_PUSH_VALUE, m_value := some (VALUE.num (strToRat "2")) }]
        CONTEXT.empty).1 = v :=
  C2_run_stack_balance totalEnv 5 { COMPILER.new with m_tree := some twoTree } CONTEXT.empty
    twoTree (ParserShaped.numPlain "2" 0 0 1) totalEnv_resolverTotal totalEnv_funcsOk rfl
    true [{ m_op := TR_UOP_PUSH_VALUE, m_value := some (VALUE.num (strToRat "2")) }]
    { COMPILER.new with m_tree := some twoTree } CONTEXT.empty rfl CONTEXT.empty rfl
